import Mathlib

/-!
Verification development for the query-time RAG pipeline of this repository:
a shallow embedding of `src/rag/reranker.py`, `src/rag/answer_generator.py`,
`src/rag/vector_searcher.py` and `src/rag/rag_pipeline.py`, followed by
theorems about its documented properties.

Modelling conventions:
* Python `float` values (cosine distances, relevance scores) appear in the
  claims only through their ordering, so they are modelled as `Int`.
* Python strings are Lean `String`s; `_format_contexts_for_storage` and
  `_parse_contexts_for_evaluation` manipulate the character sequence, so they
  are embedded over `List Char` (a `String`'s character data).
* Remote collaborators (the chunk store behind `VectorSearcher`, the
  cross-encoder's `predict`, the OCI chat backend, the progress callback)
  are parameters: a theorem quantifying over them covers every behaviour of
  the external service.  Exceptions are modelled with `Except`.
* Wall-clock durations (`time.time()` differences) are not observable in a
  shallow embedding; the recorded timing fields are modelled as the constant
  `0`, which is also their initialisation value in `process_batch`.  No claim
  depends on the value of a measured duration.
-/

namespace Rag

/-- Python list slicing `l[:n]` for an `int` bound `n` (negative bounds count
from the end, and the result is clamped to the list). -/
def pySliceTo (l : List α) (n : Int) : List α :=
  if 0 ≤ n then l.take n.toNat else l.take ((l.length : Int) + n).toNat

/-- The ASCII whitespace characters stripped by Python's `str.strip()`. -/
def isPySpace (c : Char) : Bool :=
  c = ' ' || c = '\t' || c = '\n' || c = '\r' || c = '\x0b' || c = '\x0c'

/-- Python `s.lstrip()` over character data. -/
def pyLStrip (s : List Char) : List Char := s.dropWhile isPySpace

/-- Python `s.rstrip()` over character data. -/
def pyRStrip (s : List Char) : List Char := (s.reverse.dropWhile isPySpace).reverse

/-- Python `s.strip()` over character data. -/
def pyStrip (s : List Char) : List Char := pyLStrip (pyRStrip s)

/-- The reranker's emptiness test `not query or query.strip() == ""`
(`reranker.py`, line 152): true exactly when the query strips to nothing. -/
def isBlank (query : String) : Bool := (pyStrip query.data).isEmpty

/-- `SearchResult` dataclass (`vector_searcher.py`). -/
structure SearchResult where
  chunk_id : Int
  document_id : Int
  filename : String
  chunk_text : String
  distance : Int
deriving DecidableEq, Repr

/-- `RankedChunk` dataclass (`reranker.py`): a search result plus an optional
relevance score (`None` on the fallback path). -/
structure RankedChunk where
  chunk_id : Int
  document_id : Int
  filename : String
  chunk_text : String
  distance : Int
  rerank_score : Option Int := none
deriving DecidableEq, Repr

/-- The `RankedChunk(..., rerank_score=None)` conversion used by the rerank
fallback (`reranker.py`, lines 196-206) and the bypass path of
`process_single` (`rag_pipeline.py`, lines 180-190). -/
def mkFallbackChunk (c : SearchResult) : RankedChunk :=
  { chunk_id := c.chunk_id, document_id := c.document_id, filename := c.filename,
    chunk_text := c.chunk_text, distance := c.distance, rerank_score := none }

/-- The `RankedChunk(..., rerank_score=float(score))` conversion on the rerank
success path (`reranker.py`, lines 173-183). -/
def mkScoredChunk (c : SearchResult) (s : Int) : RankedChunk :=
  { chunk_id := c.chunk_id, document_id := c.document_id, filename := c.filename,
    chunk_text := c.chunk_text, distance := c.distance, rerank_score := some s }

/-- The sort key `lambda x: x.rerank_score` of the success path; on that path
every score is present, so the `getD` default is never consulted. -/
def scoreKey (x : RankedChunk) : Int := x.rerank_score.getD 0

/-- Comparison realising `sort(key=lambda x: x.rerank_score, reverse=True)`
(a stable descending sort by score). -/
def scoreDescLe (a b : RankedChunk) : Bool := decide (scoreKey b ≤ scoreKey a)

/-- Comparison realising `sort(key=lambda x: x.distance)` (a stable ascending
sort by distance). -/
def distAscLe (a b : RankedChunk) : Bool := decide (a.distance ≤ b.distance)

/-- `JapaneseReranker.rerank` (`reranker.py`, lines 127-211).  The
cross-encoder call `self.model.predict(pairs, ...)` — including the lazy model
load it may trigger — is the parameter `predict`; an `Except.error` models any
exception it raises.  The two `print` warnings of the fallback branch are
side-effect-free logging and are not modelled. -/
def rerank (predict : List (String × String) → Except String (List Int))
    (query : String) (chunks : List SearchResult) (top_n : Int) :
    Except String (List RankedChunk) :=
  if isBlank query then Except.error "Query cannot be empty"
  else if top_n ≤ 0 then Except.error "top_n must be > 0"
  else if chunks.isEmpty then Except.ok []
  else
    match predict (chunks.map fun c => (query, c.chunk_text)) with
    | Except.ok scores =>
        let ranked := (chunks.zip scores).map fun p => mkScoredChunk p.1 p.2
        Except.ok (pySliceTo (ranked.mergeSort scoreDescLe) top_n)
    | Except.error _ =>
        let fallback := chunks.map mkFallbackChunk
        Except.ok (pySliceTo (fallback.mergeSort distAscLe) top_n)

/-- Outcome of one `self.genai_client.chat(...)` call: a successful response
(already reduced to its answer text) or a raised exception carrying the
duck-typed `status` attribute when present (`hasattr(e, 'status')`). -/
inductive CallOutcome where
  | ok (answer : String)
  | err (status : Option Int) (msg : String)
deriving DecidableEq, Repr

/-- The rate-limit test `hasattr(e, 'status') and e.status == 429`
(`answer_generator.py`, line 403); false for a successful call. -/
def rateLimited : CallOutcome → Bool
  | CallOutcome.err (some s) _ => decide (s = 429)
  | _ => false

/-- How `_execute_with_retry` terminates: return the call's result, raise
`RateLimitError` after exhausting retries, or re-raise a non-429 exception. -/
inductive RetryResult where
  | success (answer : String)
  | rateLimitExceeded (msg : String)
  | reraised (status : Option Int) (msg : String)
deriving DecidableEq, Repr

/-- Observable behaviour of `_execute_with_retry`: its result, the
`time.sleep` durations in order, and how many backend calls were made. -/
structure RetryTrace where
  result : RetryResult
  sleeps : List Nat
  calls : Nat
deriving DecidableEq, Repr

/-- The loop body of `AnswerGenerator._execute_with_retry`
(`answer_generator.py`, lines 385-416), unrolled from iteration `attempt` of
`for attempt in range(self.max_retries + 1)`.  `backend attempt` is the
outcome of the `func()` call on that iteration. -/
def execute_with_retryFrom (backend : Nat → CallOutcome)
    (maxRetries retryDelay attempt : Nat) : RetryTrace :=
  match backend attempt with
  | CallOutcome.ok a => { result := RetryResult.success a, sleeps := [], calls := 1 }
  | CallOutcome.err st m =>
    if rateLimited (CallOutcome.err st m) then
      if h : attempt < maxRetries then
        let rest := execute_with_retryFrom backend maxRetries retryDelay (attempt + 1)
        { result := rest.result,
          sleeps := retryDelay * 2 ^ attempt :: rest.sleeps,
          calls := rest.calls + 1 }
      else
        { result := RetryResult.rateLimitExceeded
            ("Rate limit exceeded after " ++ toString maxRetries ++ " retries"),
          sleeps := [], calls := 1 }
    else { result := RetryResult.reraised st m, sleeps := [], calls := 1 }
termination_by maxRetries - attempt

/-- `AnswerGenerator._execute_with_retry`, started at `attempt = 0`. -/
def execute_with_retry (backend : Nat → CallOutcome) (maxRetries retryDelay : Nat) :
    RetryTrace :=
  execute_with_retryFrom backend maxRetries retryDelay 0

/-- Decimal digit characters, for rendering the 1-based chunk position of the
f-string `f"[ドキュメント {i+1}: ..."`. -/
def digitChar : Nat → Char
  | 0 => '0' | 1 => '1' | 2 => '2' | 3 => '3' | 4 => '4'
  | 5 => '5' | 6 => '6' | 7 => '7' | 8 => '8' | _ => '9'

/-- Accumulator loop of the decimal rendering of a natural number. -/
def natCharsAux (n : Nat) (acc : List Char) : List Char :=
  if h : n < 10 then digitChar n :: acc
  else natCharsAux (n / 10) (digitChar (n % 10) :: acc)
termination_by n
decreasing_by exact Nat.div_lt_self (by omega) (by omega)

/-- Decimal rendering of a natural number (Python's `str(n)` for `n ≥ 0`). -/
def natChars (n : Nat) : List Char := natCharsAux n []

/-- The tag line of one context chunk, `[ドキュメント {i+1}: {filename}]`,
with `i` the 0-based position. -/
def headerOf (i : Nat) (filename : String) : List Char :=
  ("[ドキュメント ".data) ++ natChars (i + 1) ++ (": ".data) ++ filename.data ++ ("]".data)

/-- One serialized chunk, `f"[ドキュメント {i+1}: {chunk.filename}]\n{chunk.chunk_text}"`
(`rag_pipeline.py`, line 372, and identically `answer_generator.py`, line 269). -/
def blockOf (i : Nat) (c : RankedChunk) : List Char :=
  headerOf i c.filename ++ '\n' :: c.chunk_text.data

/-- `"\n\n".join(...)` over the enumerated chunk blocks, starting at
position `i`. -/
def formatBlocks : Nat → List RankedChunk → List Char
  | _, [] => []
  | i, [c] => blockOf i c
  | i, c :: c₂ :: cs => blockOf i c ++ '\n' :: '\n' :: formatBlocks (i + 1) (c₂ :: cs)

/-- `RAGPipeline._format_contexts_for_storage` (`rag_pipeline.py`, lines
360-374), over character data. -/
def formatContexts (chunks : List RankedChunk) : List Char := formatBlocks 0 chunks

/-- The marker `'[ドキュメント'` tested by
`line.startswith('[ドキュメント')` (`rag_pipeline.py`, line 396). -/
def docMarker : List Char := "[ドキュメント".data

/-- Python `contexts_str.split('\n')` over character data (an explicit
separator keeps empty pieces, and the empty string yields one empty piece). -/
def pySplitNl : List Char → List (List Char)
  | [] => [[]]
  | c :: rest =>
    if c = '\n' then [] :: pySplitNl rest
    else
      match pySplitNl rest with
      | [] => [[c]]
      | h :: t => (c :: h) :: t

/-- The `for line in lines` loop of `_parse_contexts_for_evaluation`
(`rag_pipeline.py`, lines 395-406), including the final flush of
`current_doc`: `current` is `current_doc` and `acc` is `individual_docs`. -/
def parseLoop : List (List Char) → List Char → List (List Char) → List (List Char)
  | [], current, acc => if current.isEmpty then acc else acc ++ [pyStrip current]
  | line :: rest, current, acc =>
    if docMarker.isPrefixOf line then
      parseLoop rest (line ++ ['\n']) (if current.isEmpty then acc else acc ++ [pyStrip current])
    else parseLoop rest (current ++ line ++ ['\n']) acc

/-- `RAGPipeline._parse_contexts_for_evaluation` (`rag_pipeline.py`, lines
376-408).  `pd.isna` is never true of an actual string and is not modelled. -/
def parseContexts (s : List Char) : List (List Char) :=
  if s.isEmpty then [[]]
  else
    let docs := parseLoop (pySplitNl s) [] []
    if docs.isEmpty then [s] else docs

/-- Observer for the spec's per-chunk tagging scheme: the source name carried
by a parsed block, i.e. the text between `": "` of its tag line and the tag's
closing `]`.  Used only to state that parsing recovers the source names. -/
def docSourceName (doc : List Char) : List Char :=
  (((doc.takeWhile fun c => c ≠ '\n').dropWhile fun c => c ≠ ':').drop 2).dropLast

/-- Observer for the spec's per-chunk tagging scheme: the chunk text carried
by a parsed block, i.e. everything after its tag line. -/
def docText (doc : List Char) : List Char :=
  (doc.dropWhile fun c => c ≠ '\n').drop 1

/-- `GeneratedAnswer` dataclass (`answer_generator.py`); `generation_time` is
a wall-clock measurement, modelled as `0` (see the module conventions). -/
structure GeneratedAnswer where
  answer : String
  model_used : String
  generation_time : Int
deriving DecidableEq, Repr

/-- `AnswerGenerator` constructor state (`answer_generator.py`, lines
111-145): the constructor validates `max_retries >= 0` and `retry_delay > 0`,
so both are naturals here. -/
structure GenConfig where
  default_model : String
  maxRetries : Nat
  retryDelay : Nat
deriving Repr

/-- `model_to_use = model if model else self.default_model`
(`answer_generator.py`, line 181): `None` and the empty string are falsy. -/
def chooseModel (cfg : GenConfig) (mdl : Option String) : String :=
  match mdl with
  | none => cfg.default_model
  | some m => if m = "" then cfg.default_model else m

/-- `MAX_TOKENS_LIMIT` class dictionary (`answer_generator.py`, lines
106-109). -/
def MAX_TOKENS_LIMIT (key : String) : Int :=
  if key = "cohere" then 4000 else 128000

/-- `model.lower()` over character data. -/
def lowerChars (model : String) : List Char := model.data.map Char.toLower

/-- `AnswerGenerator._get_adjusted_max_tokens` (`answer_generator.py`, lines
231-248): `'cohere' in model.lower()` selects the 4000 ceiling, everything
else the 128000 ceiling, and `min` applies it. -/
def get_adjusted_max_tokens (model : String) (maxTokens : Int) : Int :=
  if "cohere".data <:+: lowerChars model then
    min maxTokens (MAX_TOKENS_LIMIT "cohere")
  else
    min maxTokens (MAX_TOKENS_LIMIT "default")

/-- The dispatch test of `generate` (`answer_generator.py`, line 194):
`any(cohere_model in model_to_use.lower() for cohere_model in ['cohere'])`. -/
def usesCohereRequest (model : String) : Bool :=
  ["cohere"].any fun pat => decide (pat.data <:+: lowerChars model)

/-- `AnswerGenerator._build_prompt` (`answer_generator.py`, lines 250-285);
the joined context blocks are exactly `formatContexts`. -/
def buildPrompt (query : String) (contexts : List RankedChunk) (answerPrompt : String) :
    String :=
  "以下のドキュメントを参考に、質問に回答してください。\n\n【参考ドキュメント】\n"
    ++ String.mk (formatContexts contexts)
    ++ "\n\n【質問】\n" ++ query ++ "\n\n【回答】\n" ++ answerPrompt ++ "\n"

/-- The two request shapes handed to `self.genai_client.chat`: family A is
`CohereChatRequest` (single message, with top-k sampling), family B is
`GenericChatRequest` (a list of messages).  Float-valued sampling knobs
(`temperature`, `top_p`, `frequency_penalty`) are not referenced by any claim
and are omitted. -/
inductive ChatRequestShape where
  | cohereReq (message : String) (maxTokens : Int) (topK : Int)
  | genericReq (messages : List String) (maxTokens : Int)
deriving DecidableEq, Repr

/-- The `max_tokens` field actually placed in the outgoing request. -/
def requestMaxTokens : ChatRequestShape → Int
  | ChatRequestShape.cohereReq _ mt _ => mt
  | ChatRequestShape.genericReq _ mt => mt

/-- Whether the outgoing request uses the family-A (`CohereChatRequest`)
shape. -/
def isCohereShape : ChatRequestShape → Bool
  | ChatRequestShape.cohereReq _ _ _ => true
  | ChatRequestShape.genericReq _ _ => false

/-- The request `generate` builds and dispatches: model selection, the
per-family `max_tokens` ceiling, prompt construction, and the family split of
`answer_generator.py`, lines 180-212 (via `_generate_with_cohere` /
`_generate_with_generic`, lines 287-383). -/
def generateRequest (cfg : GenConfig) (query : String) (contexts : List RankedChunk)
    (mdl : Option String) (maxTokens : Int) (topK : Int) (answerPrompt : String) :
    ChatRequestShape :=
  let m := chooseModel cfg mdl
  let mt := get_adjusted_max_tokens m maxTokens
  let prompt := buildPrompt query contexts answerPrompt
  if usesCohereRequest m then ChatRequestShape.cohereReq prompt mt topK
  else ChatRequestShape.genericReq [prompt] mt

/-- The two error kinds `generate` can raise: `AnswerGenerationError`, and the
distinct `RateLimitError` re-raised unchanged (`answer_generator.py`, lines
223-229). -/
inductive GenError where
  | answerGeneration (msg : String)
  | rateLimit (msg : String)
deriving DecidableEq, Repr

/-- Observable behaviour of one `AnswerGenerator.generate` call: the request
sent, the outcome, and the sleeps/calls of the retry loop. -/
structure GenerateTrace where
  request : ChatRequestShape
  outcome : Except GenError GeneratedAnswer
  sleeps : List Nat
  calls : Nat

/-- `AnswerGenerator.generate` (`answer_generator.py`, lines 147-229).
`chat attempt req` is the outcome of the `self.genai_client.chat(...)` call on
retry iteration `attempt`.  A `RateLimitError` from the retry loop is
re-raised as-is; any other exception is wrapped into
`AnswerGenerationError(f"Failed to generate answer with model {model}: ...")`. -/
def generate (chat : Nat → ChatRequestShape → CallOutcome) (cfg : GenConfig)
    (query : String) (contexts : List RankedChunk) (mdl : Option String)
    (maxTokens : Int) (topK : Int) (answerPrompt : String) : GenerateTrace :=
  let m := chooseModel cfg mdl
  let req := generateRequest cfg query contexts mdl maxTokens topK answerPrompt
  let t := execute_with_retry (fun attempt => chat attempt req) cfg.maxRetries cfg.retryDelay
  { request := req,
    outcome :=
      match t.result with
      | RetryResult.success a =>
          Except.ok { answer := a, model_used := m, generation_time := 0 }
      | RetryResult.rateLimitExceeded msg => Except.error (GenError.rateLimit msg)
      | RetryResult.reraised _ msg =>
          Except.error (GenError.answerGeneration
            ("Failed to generate answer with model " ++ m ++ ": " ++ msg)),
    sleeps := t.sleeps,
    calls := t.calls }

/-- `VectorSearcher.search` (`vector_searcher.py`, lines 155-262) with the
pipeline's explicit `top_k`.  Its own validation is embedded (`top_k <= 0`
raises, an empty query raises inside `embed_query`, lines 143-144); the
embedder, the store connection and the SQL nearest-neighbour query are the
external `oracle`, whose `Except.error` models any wrapped
`VectorSearchError`. -/
def search (oracle : String → Option String → Int → Except String (List SearchResult))
    (query : String) (top_k : Int) (filtering : Option String) :
    Except String (List SearchResult) :=
  if top_k ≤ 0 then Except.error "top_k must be > 0"
  else if query = "" then Except.error "Query cannot be empty"
  else oracle query filtering top_k

/-- Which component's exception reached `process_batch`'s per-row handler:
`VectorSearchError`, `RerankError`, `AnswerGenerationError` or
`RateLimitError`.  `str(e)` is the carried message. -/
inductive PipeErr where
  | vectorSearch (msg : String)
  | rerankErr (msg : String)
  | generationErr (msg : String)
  | rateLimit (msg : String)
deriving DecidableEq, Repr

/-- Python `str(e)` of the caught per-row exception. -/
def pipeErrStr : PipeErr → String
  | PipeErr.vectorSearch m => m
  | PipeErr.rerankErr m => m
  | PipeErr.generationErr m => m
  | PipeErr.rateLimit m => m

/-- `RAGResult` dataclass (`rag_pipeline.py`, lines 20-42).  The four timing
fields are wall-clock measurements, modelled as `0` (module conventions);
`generation_time` is copied from `GeneratedAnswer.generation_time`. -/
structure RAGResult where
  question : String
  answer : String
  contexts : String
  vector_search_time : Int
  rerank_time : Int
  generation_time : Int
  total_time : Int
  model_used : String
deriving DecidableEq, Repr

/-- `RAGPipeline` constructor configuration (`rag_pipeline.py`, lines
104-135).  `top_k` and `rerank_top_n` are Python ints and are not validated
by the constructor. -/
structure PipelineConfig where
  enable_reranking : Bool
  top_k : Int
  rerank_top_n : Int
deriving Repr

/-- `RAGPipeline.process_single` (`rag_pipeline.py`, lines 137-217):
search, then reranking (or the bypass conversion honouring the
`searchResults[:rerank_top_n]` slice), then generation, then the context
serialization.  Each stage's exception propagates to the caller tagged with
its kind. -/
def process_single
    (searchOracle : String → Option String → Int → Except String (List SearchResult))
    (predict : List (String × String) → Except String (List Int))
    (gen : String → List RankedChunk → Except GenError GeneratedAnswer)
    (cfg : PipelineConfig) (question : String) (filtering : Option String) :
    Except PipeErr RAGResult := do
  let searchResults ←
    (search searchOracle question cfg.top_k filtering).mapError PipeErr.vectorSearch
  let ranked ←
    if cfg.enable_reranking then
      (rerank predict question searchResults cfg.rerank_top_n).mapError PipeErr.rerankErr
    else
      Except.ok ((pySliceTo searchResults cfg.rerank_top_n).map mkFallbackChunk)
  let ga ← (gen question ranked).mapError fun e =>
    match e with
    | GenError.answerGeneration m => PipeErr.generationErr m
    | GenError.rateLimit m => PipeErr.rateLimit m
  Except.ok
    { question := question, answer := ga.answer,
      contexts := String.mk (formatContexts ranked),
      vector_search_time := 0, rerank_time := 0,
      generation_time := ga.generation_time, total_time := 0,
      model_used := ga.model_used }

/-- One row of the input `questions_df`: the required `question` cell and the
optional `filter` cell (`none` models both a missing column and a NaN cell,
matching `row.get('filter', None)` / `pd.notna`). -/
structure QuestionRow where
  question : String
  filter : Option String
deriving DecidableEq, Repr

/-- The blank-filter normalisation of `process_batch` (`rag_pipeline.py`,
lines 260-264): a missing/NaN/empty filter becomes `None`. -/
def effectiveFilter : Option String → Option String
  | none => none
  | some f => if f = "" then none else some f

/-- `status` column values. -/
inductive RowStatus where
  | pending
  | success
  | failed
deriving DecidableEq, Repr

/-- One row of the output `results_df` after `process_batch`: the input cells
plus the result columns initialised at lines 242-250 of `rag_pipeline.py`
(`answer`/`contexts`/`model_used` start as `None`, the timing columns as
`0.0`, `status` as `'pending'`; the `error` column only exists on rows that
failed). -/
structure ResultRow where
  question : String
  filter : Option String
  answer : Option String := none
  contexts : Option String := none
  vector_search_time : Int := 0
  rerank_time : Int := 0
  generation_time : Int := 0
  total_time : Int := 0
  model_used : Option String := none
  status : RowStatus := RowStatus.pending
  error : Option String := none
deriving DecidableEq, Repr

/-- A freshly initialised output row (`rag_pipeline.py`, lines 242-250). -/
def initRow (q : QuestionRow) : ResultRow :=
  { question := q.question, filter := q.filter }

/-- The writes on the success branch (`rag_pipeline.py`, lines 279-286). -/
def successRow (q : QuestionRow) (r : RAGResult) : ResultRow :=
  { initRow q with
    answer := some r.answer, contexts := some r.contexts,
    vector_search_time := r.vector_search_time, rerank_time := r.rerank_time,
    generation_time := r.generation_time, total_time := r.total_time,
    model_used := some r.model_used, status := RowStatus.success }

/-- The writes on the failure branch (`rag_pipeline.py`, lines 290-295):
only `answer`, `contexts`, `status` and `error` are touched. -/
def failedRow (q : QuestionRow) (e : PipeErr) : ResultRow :=
  { initRow q with
    answer := some "", contexts := some "",
    status := RowStatus.failed, error := some (pipeErrStr e) }

/-- `BatchResult` dataclass (`rag_pipeline.py`, lines 45-61); `elapsed_time`
is wall clock and not modelled. -/
structure BatchResult where
  total_questions : Nat
  successful : Nat
  failed : Nat
  results_df : List ResultRow
deriving DecidableEq, Repr

/-- Events observable during `process_batch`, in program order: a
`progress_callback` invocation, or the recording of row `idx`'s outcome. -/
inductive BEvent where
  | cb (msg : String)
  | rowDone (idx : Nat) (st : RowStatus)
deriving DecidableEq, Repr

/-- The progress message
`f"Processing {idx + 1}/{len(questions_df)}: {question[:50]}..."`. -/
def progressMsg (idx n : Nat) (question : String) : String :=
  "Processing " ++ toString (idx + 1) ++ "/" ++ toString n ++ ": "
    ++ String.mk (question.data.take 50) ++ "..."

/-- The failure message
`f"Error processing question {idx + 1}: {str(e)}"`. -/
def errorCbMsg (idx : Nat) (e : PipeErr) : String :=
  "Error processing question " ++ toString (idx + 1) ++ ": " ++ pipeErrStr e

/-- One `progress_callback` invocation: absent callbacks emit nothing, a
raising callback propagates its exception (the calls at lines 267-268 and
299-300 of `rag_pipeline.py` are outside any `try`). -/
def invokeCallback (cb : Option (String → Except String Unit)) (msg : String) :
    Except String (List BEvent) :=
  match cb with
  | none => Except.ok []
  | some f =>
    match f msg with
    | Except.ok _ => Except.ok [BEvent.cb msg]
    | Except.error m => Except.error m

/-- The `for idx, row in questions_df.iterrows()` loop of `process_batch`
(`rag_pipeline.py`, lines 256-300), from row `idx` on.  `ps` is
`process_single` applied to the row's question and normalised filter (the
generation parameters are folded into `ps`).  Returns the produced rows, the
`successful` and `failed` counters, and the event trace; a raising callback
aborts the whole loop exactly as the uncaught Python exception does. -/
def processRows (ps : String → Option String → Except PipeErr RAGResult)
    (cb : Option (String → Except String Unit)) (n : Nat) :
    List QuestionRow → Nat → Except String (List ResultRow × Nat × Nat × List BEvent)
  | [], _ => Except.ok ([], 0, 0, [])
  | q :: rest, idx => do
    let ev1 ← invokeCallback cb (progressMsg idx n q.question)
    match ps q.question (effectiveFilter q.filter) with
    | Except.ok r => do
      let (rs, s, f, evs) ← processRows ps cb n rest (idx + 1)
      Except.ok (successRow q r :: rs, s + 1, f,
        ev1 ++ BEvent.rowDone idx RowStatus.success :: evs)
    | Except.error e => do
      let ev2 ← invokeCallback cb (errorCbMsg idx e)
      let (rs, s, f, evs) ← processRows ps cb n rest (idx + 1)
      Except.ok (failedRow q e :: rs, s, f + 1,
        ev1 ++ BEvent.rowDone idx RowStatus.failed :: (ev2 ++ evs))

/-- `RAGPipeline.process_batch` (`rag_pipeline.py`, lines 219-311) for a
table that has the required `question` column (rows are typed, so the
missing-column fast failure at line 238 cannot arise).  Also returns the
event trace. -/
def process_batch (ps : String → Option String → Except PipeErr RAGResult)
    (cb : Option (String → Except String Unit)) (rows : List QuestionRow) :
    Except String (BatchResult × List BEvent) :=
  match processRows ps cb rows.length rows 0 with
  | Except.error m => Except.error m
  | Except.ok (rs, s, f, evs) =>
    Except.ok ({ total_questions := rows.length, successful := s, failed := f,
                 results_df := rs }, evs)

/-- The output row `process_batch` records for input row `q`, as a function
of the `process_single` outcome. -/
def outRow (ps : String → Option String → Except PipeErr RAGResult) (q : QuestionRow) :
    ResultRow :=
  match ps q.question (effectiveFilter q.filter) with
  | Except.ok r => successRow q r
  | Except.error e => failedRow q e

/-- Whether row `q`'s `process_single` call succeeds. -/
def rowSucceeds (ps : String → Option String → Except PipeErr RAGResult)
    (q : QuestionRow) : Bool :=
  match ps q.question (effectiveFilter q.filter) with
  | Except.ok _ => true
  | Except.error _ => false

/-- The events one callback invocation contributes when the callback does not
raise: nothing if absent, one `cb` event otherwise. -/
def cbEvents (cb : Option (String → Except String Unit)) (msg : String) : List BEvent :=
  match cb with
  | none => []
  | some _ => [BEvent.cb msg]

/-- The event trace `process_batch` produces for a non-raising callback. -/
def traceOf (ps : String → Option String → Except PipeErr RAGResult)
    (cb : Option (String → Except String Unit)) (n : Nat) :
    List QuestionRow → Nat → List BEvent
  | [], _ => []
  | q :: rest, idx =>
    cbEvents cb (progressMsg idx n q.question) ++
      match ps q.question (effectiveFilter q.filter) with
      | Except.ok _ => BEvent.rowDone idx RowStatus.success :: traceOf ps cb n rest (idx + 1)
      | Except.error e =>
          BEvent.rowDone idx RowStatus.failed ::
            (cbEvents cb (errorCbMsg idx e) ++ traceOf ps cb n rest (idx + 1))

/-- The line groups the parse loop sees after the first serialized chunk:
for each further chunk, the empty separator line, then its tag line, then its
text lines. -/
def sepGroups : Nat → List RankedChunk → List (List Char)
  | _, [] => []
  | i, c :: cs =>
    [] :: (headerOf i c.filename :: pySplitNl c.chunk_text.data) ++ sepGroups (i + 1) cs

/-- The documents `_parse_contexts_for_evaluation` recovers from a serialized
chunk list: each chunk's block, stripped. -/
def strippedBlocks : Nat → List RankedChunk → List (List Char)
  | _, [] => []
  | i, c :: cs => pyStrip (blockOf i c) :: strippedBlocks (i + 1) cs

/-! ## Theorems -/

/-! ### The retry loop of `AnswerGenerator` (claims C2, C3) -/

theorem execute_with_retryFrom_ok (backend : Nat → CallOutcome) (M d start : Nat)
    (a : String) (hb : backend start = CallOutcome.ok a) :
    execute_with_retryFrom backend M d start =
      { result := RetryResult.success a, sleeps := [], calls := 1 } := by
  rw [execute_with_retryFrom, hb]

theorem execute_with_retryFrom_step429 (backend : Nat → CallOutcome) (M d start : Nat)
    (m : String) (hb : backend start = CallOutcome.err (some 429) m) (hlt : start < M) :
    execute_with_retryFrom backend M d start =
      { result := (execute_with_retryFrom backend M d (start + 1)).result,
        sleeps := d * 2 ^ start :: (execute_with_retryFrom backend M d (start + 1)).sleeps,
        calls := (execute_with_retryFrom backend M d (start + 1)).calls + 1 } := by
  rw [execute_with_retryFrom, hb]
  simp [rateLimited, hlt]

theorem execute_with_retryFrom_exhaust (backend : Nat → CallOutcome) (M d start : Nat)
    (m : String) (hb : backend start = CallOutcome.err (some 429) m) (hge : ¬ start < M) :
    execute_with_retryFrom backend M d start =
      { result := RetryResult.rateLimitExceeded
          ("Rate limit exceeded after " ++ toString M ++ " retries"),
        sleeps := [], calls := 1 } := by
  rw [execute_with_retryFrom, hb]
  simp [rateLimited, hge]

theorem execute_with_retryFrom_other (backend : Nat → CallOutcome) (M d start : Nat)
    (st : Option Int) (m : String) (hb : backend start = CallOutcome.err st m)
    (hnr : rateLimited (CallOutcome.err st m) = false) :
    execute_with_retryFrom backend M d start =
      { result := RetryResult.reraised st m, sleeps := [], calls := 1 } := by
  rw [execute_with_retryFrom, hb]
  simp [hnr]

theorem rateLimited_eq_true_iff (c : CallOutcome) :
    rateLimited c = true ↔ ∃ m, c = CallOutcome.err (some 429) m := by
  cases c with
  | ok a => simp [rateLimited]
  | err st m =>
    cases st with
    | none => simp [rateLimited]
    | some s =>
      simp only [rateLimited, decide_eq_true_eq]
      constructor
      · intro h; exact ⟨m, by rw [h]⟩
      · rintro ⟨m', h⟩; cases h; rfl

/-- Skipping over `k` consecutive rate-limited attempts: the loop keeps
running, accumulating one exponential-backoff sleep per attempt. -/
theorem execute_with_retryFrom_skip (backend : Nat → CallOutcome) (M d : Nat) :
    ∀ (k start : Nat), start + k ≤ M →
    (∀ i, i < k → rateLimited (backend (start + i)) = true) →
    execute_with_retryFrom backend M d start =
      { result := (execute_with_retryFrom backend M d (start + k)).result,
        sleeps := (List.range k).map (fun i => d * 2 ^ (start + i))
                    ++ (execute_with_retryFrom backend M d (start + k)).sleeps,
        calls := (execute_with_retryFrom backend M d (start + k)).calls + k } := by
  intro k
  induction k with
  | zero => intro start _ _; simp
  | succ k ih =>
    intro start hle h429
    obtain ⟨m, hb⟩ := (rateLimited_eq_true_iff (backend start)).mp
      (by simpa using h429 0 (Nat.succ_pos k))
    have hlt : start < M := by omega
    rw [execute_with_retryFrom_step429 backend M d start m hb hlt]
    have hrec := ih (start + 1) (by omega)
      (fun i hi => by
        have := h429 (i + 1) (by omega)
        simpa [Nat.add_comm, Nat.add_assoc, Nat.add_left_comm] using this)
    rw [hrec]
    have harr : start + 1 + k = start + (k + 1) := by omega
    rw [harr]
    simp only [RetryTrace.mk.injEq, true_and]
    refine ⟨?_, by omega⟩
    rw [List.range_succ_eq_map, List.map_cons, List.map_map]
    simp only [List.cons_append, Nat.add_zero, List.cons.injEq, true_and]
    have hmap : ∀ i ∈ List.range k,
        ((fun i => d * 2 ^ (start + i)) ∘ Nat.succ) i = (fun i => d * 2 ^ (start + 1 + i)) i := by
      intro i _
      simp only [Function.comp]
      have : start + Nat.succ i = start + 1 + i := by omega
      rw [this]
    rw [List.map_congr_left hmap]

theorem generate_eq_trace (chat : Nat → ChatRequestShape → CallOutcome) (cfg : GenConfig)
    (query : String) (contexts : List RankedChunk) (mdl : Option String)
    (maxTokens : Int) (topK : Int) (answerPrompt : String) :
    generate chat cfg query contexts mdl maxTokens topK answerPrompt =
      { request := generateRequest cfg query contexts mdl maxTokens topK answerPrompt,
        outcome :=
          match (execute_with_retry
              (fun attempt => chat attempt
                (generateRequest cfg query contexts mdl maxTokens topK answerPrompt))
              cfg.maxRetries cfg.retryDelay).result with
          | RetryResult.success a =>
              Except.ok { answer := a, model_used := chooseModel cfg mdl, generation_time := 0 }
          | RetryResult.rateLimitExceeded msg => Except.error (GenError.rateLimit msg)
          | RetryResult.reraised _ msg =>
              Except.error (GenError.answerGeneration
                ("Failed to generate answer with model " ++ chooseModel cfg mdl ++ ": " ++ msg)),
        sleeps := (execute_with_retry
            (fun attempt => chat attempt
              (generateRequest cfg query contexts mdl maxTokens topK answerPrompt))
            cfg.maxRetries cfg.retryDelay).sleeps,
        calls := (execute_with_retry
            (fun attempt => chat attempt
              (generateRequest cfg query contexts mdl maxTokens topK answerPrompt))
            cfg.maxRetries cfg.retryDelay).calls } := by
  rfl

/-- C2: if the backend raises a 429 rate-limit signal on exactly the first
`k` attempts (`k < max_retries`) and then succeeds, `generate` returns the
successful answer, and the retry loop sleeps exactly `k` times, the `i`-th
sleep (0-based) lasting `retry_delay * 2^i` seconds. -/
theorem generate_rate_limit_recovery
    (chat : Nat → ChatRequestShape → CallOutcome) (cfg : GenConfig)
    (query : String) (contexts : List RankedChunk) (mdl : Option String)
    (maxTokens : Int) (topK : Int) (answerPrompt : String) (k : Nat) (a : String)
    (hk : k < cfg.maxRetries)
    (h429 : ∀ i, i < k →
      rateLimited (chat i (generateRequest cfg query contexts mdl maxTokens topK answerPrompt))
        = true)
    (hok : chat k (generateRequest cfg query contexts mdl maxTokens topK answerPrompt)
        = CallOutcome.ok a) :
    (generate chat cfg query contexts mdl maxTokens topK answerPrompt).outcome =
      Except.ok { answer := a, model_used := chooseModel cfg mdl, generation_time := 0 }
    ∧ (generate chat cfg query contexts mdl maxTokens topK answerPrompt).sleeps =
        (List.range k).map (fun i => cfg.retryDelay * 2 ^ i)
    ∧ (generate chat cfg query contexts mdl maxTokens topK answerPrompt).calls = k + 1 := by
  have hskip := execute_with_retryFrom_skip
    (fun attempt => chat attempt (generateRequest cfg query contexts mdl maxTokens topK answerPrompt))
    cfg.maxRetries cfg.retryDelay k 0 (by omega) (fun i hi => by simpa using h429 i hi)
  have hstop := execute_with_retryFrom_ok
    (fun attempt => chat attempt (generateRequest cfg query contexts mdl maxTokens topK answerPrompt))
    cfg.maxRetries cfg.retryDelay (0 + k) a (by simpa using hok)
  have hrun : execute_with_retry
      (fun attempt => chat attempt (generateRequest cfg query contexts mdl maxTokens topK answerPrompt))
      cfg.maxRetries cfg.retryDelay =
      { result := RetryResult.success a,
        sleeps := (List.range k).map (fun i => cfg.retryDelay * 2 ^ i),
        calls := k + 1 } := by
    rw [execute_with_retry, hskip, hstop]
    simp only [RetryTrace.mk.injEq, Nat.zero_add, true_and]
    exact ⟨by simp, by omega⟩
  rw [generate_eq_trace, hrun]
  exact ⟨rfl, rfl, rfl⟩

/-- C2 witness at a concrete backend failing twice with 429 then succeeding. -/
theorem generate_rate_limit_recovery_witness :
    (2 < 3 ∧
      (generate (fun i _ => if i < 2 then CallOutcome.err (some 429) "throttle"
          else CallOutcome.ok "the answer")
        { default_model := "cohere.command-a-03-2025", maxRetries := 3, retryDelay := 60 }
        "q" [] none 100 0 "").outcome =
        Except.ok { answer := "the answer", model_used := "cohere.command-a-03-2025",
                    generation_time := 0 }) ∧
    (generate (fun i _ => if i < 2 then CallOutcome.err (some 429) "throttle"
        else CallOutcome.ok "the answer")
      { default_model := "cohere.command-a-03-2025", maxRetries := 3, retryDelay := 60 }
      "q" [] none 100 0 "").sleeps = [60, 120] := by
  have h := generate_rate_limit_recovery
    (fun i _ => if i < 2 then CallOutcome.err (some 429) "throttle"
      else CallOutcome.ok "the answer")
    { default_model := "cohere.command-a-03-2025", maxRetries := 3, retryDelay := 60 }
    "q" [] none 100 0 "" 2 "the answer" (by decide)
    (fun i hi => by interval_cases i <;> rfl) rfl
  exact ⟨⟨by decide, h.1⟩, by rw [h.2.1]; rfl⟩

/-- C3: (1) if every backend attempt raises a 429 rate-limit signal,
`generate` makes exactly `max_retries + 1` calls and raises the distinct
rate-limit-kind `RateLimitError`, not the generic `AnswerGenerationError`;
(2) a non-rate-limit failure on attempt `j` (after `j` rate-limited attempts)
is raised immediately, wrapped as `AnswerGenerationError`, with no further
call and no sleep beyond the `j` backoffs already performed. -/
theorem generate_rate_limit_exhaustion_and_immediate_raise
    (chat₁ chat₂ : Nat → ChatRequestShape → CallOutcome) (cfg : GenConfig)
    (query : String) (contexts : List RankedChunk) (mdl : Option String)
    (maxTokens : Int) (topK : Int) (answerPrompt : String)
    (j : Nat) (st : Option Int) (m : String) :
    ((∀ i, i ≤ cfg.maxRetries →
        rateLimited (chat₁ i (generateRequest cfg query contexts mdl maxTokens topK answerPrompt))
          = true) →
      (generate chat₁ cfg query contexts mdl maxTokens topK answerPrompt).outcome =
        Except.error (GenError.rateLimit
          ("Rate limit exceeded after " ++ toString cfg.maxRetries ++ " retries"))
      ∧ (generate chat₁ cfg query contexts mdl maxTokens topK answerPrompt).calls =
          cfg.maxRetries + 1)
    ∧ (j ≤ cfg.maxRetries →
      (∀ i, i < j →
        rateLimited (chat₂ i (generateRequest cfg query contexts mdl maxTokens topK answerPrompt))
          = true) →
      chat₂ j (generateRequest cfg query contexts mdl maxTokens topK answerPrompt)
          = CallOutcome.err st m →
      rateLimited (CallOutcome.err st m) = false →
      (generate chat₂ cfg query contexts mdl maxTokens topK answerPrompt).outcome =
        Except.error (GenError.answerGeneration
          ("Failed to generate answer with model " ++ chooseModel cfg mdl ++ ": " ++ m))
      ∧ (generate chat₂ cfg query contexts mdl maxTokens topK answerPrompt).sleeps =
          (List.range j).map (fun i => cfg.retryDelay * 2 ^ i)
      ∧ (generate chat₂ cfg query contexts mdl maxTokens topK answerPrompt).calls = j + 1) := by
  constructor
  · intro hall
    have hskip := execute_with_retryFrom_skip
      (fun attempt => chat₁ attempt (generateRequest cfg query contexts mdl maxTokens topK answerPrompt))
      cfg.maxRetries cfg.retryDelay cfg.maxRetries 0 (by omega)
      (fun i hi => by simpa using hall i (by omega))
    obtain ⟨mm, hb⟩ := (rateLimited_eq_true_iff _).mp (by simpa using hall cfg.maxRetries (by omega))
    have hstop := execute_with_retryFrom_exhaust
      (fun attempt => chat₁ attempt (generateRequest cfg query contexts mdl maxTokens topK answerPrompt))
      cfg.maxRetries cfg.retryDelay (0 + cfg.maxRetries) mm (by simpa using hb) (by omega)
    rw [generate_eq_trace, execute_with_retry, hskip, hstop]
    exact ⟨rfl, by simpa using Nat.add_comm 1 cfg.maxRetries⟩
  · intro hj h429 hb hnr
    have hskip := execute_with_retryFrom_skip
      (fun attempt => chat₂ attempt (generateRequest cfg query contexts mdl maxTokens topK answerPrompt))
      cfg.maxRetries cfg.retryDelay j 0 (by omega)
      (fun i hi => by simpa using h429 i hi)
    have hstop := execute_with_retryFrom_other
      (fun attempt => chat₂ attempt (generateRequest cfg query contexts mdl maxTokens topK answerPrompt))
      cfg.maxRetries cfg.retryDelay (0 + j) st m (by simpa using hb) hnr
    rw [generate_eq_trace, execute_with_retry, hskip, hstop]
    refine ⟨rfl, by simp, by simpa using Nat.add_comm 1 j⟩

/-- C3 witness: an always-throttled backend, and a backend whose very first
failure is not a rate limit. -/
theorem generate_rate_limit_exhaustion_witness :
    ((generate (fun _ _ => CallOutcome.err (some 429) "throttle")
        { default_model := "meta.llama-3.3-70b-instruct", maxRetries := 3, retryDelay := 60 }
        "q" [] none 100 0 "").outcome =
      Except.error (GenError.rateLimit "Rate limit exceeded after 3 retries")
      ∧ (generate (fun _ _ => CallOutcome.err (some 429) "throttle")
          { default_model := "meta.llama-3.3-70b-instruct", maxRetries := 3, retryDelay := 60 }
          "q" [] none 100 0 "").calls = 4)
    ∧ ((generate (fun _ _ => CallOutcome.err none "boom")
        { default_model := "meta.llama-3.3-70b-instruct", maxRetries := 3, retryDelay := 60 }
        "q" [] none 100 0 "").outcome =
      Except.error (GenError.answerGeneration
        "Failed to generate answer with model meta.llama-3.3-70b-instruct: boom")
      ∧ (generate (fun _ _ => CallOutcome.err none "boom")
          { default_model := "meta.llama-3.3-70b-instruct", maxRetries := 3, retryDelay := 60 }
          "q" [] none 100 0 "").sleeps = []
      ∧ (generate (fun _ _ => CallOutcome.err none "boom")
          { default_model := "meta.llama-3.3-70b-instruct", maxRetries := 3, retryDelay := 60 }
          "q" [] none 100 0 "").calls = 1) := by
  have h := generate_rate_limit_exhaustion_and_immediate_raise
    (fun _ _ => CallOutcome.err (some 429) "throttle")
    (fun _ _ => CallOutcome.err none "boom")
    { default_model := "meta.llama-3.3-70b-instruct", maxRetries := 3, retryDelay := 60 }
    "q" [] none 100 0 "" 0 none "boom"
  refine ⟨h.1 (fun i _ => rfl), ?_⟩
  have h2 := h.2 (by decide) (fun i hi => by omega) rfl rfl
  simpa using h2

/-! ### The reranker (claims C1, C5) -/

theorem distAscLe_trans : ∀ a b c : RankedChunk, distAscLe a b → distAscLe b c → distAscLe a c := by
  intro a b c hab hbc
  simp only [distAscLe, decide_eq_true_eq] at *
  omega

theorem distAscLe_total : ∀ a b : RankedChunk, distAscLe a b || distAscLe b a := by
  intro a b
  simp only [distAscLe, Bool.or_eq_true, decide_eq_true_eq]
  omega

theorem scoreDescLe_trans : ∀ a b c : RankedChunk, scoreDescLe a b → scoreDescLe b c → scoreDescLe a c := by
  intro a b c hab hbc
  simp only [scoreDescLe, decide_eq_true_eq] at *
  omega

theorem scoreDescLe_total : ∀ a b : RankedChunk, scoreDescLe a b || scoreDescLe b a := by
  intro a b
  simp only [scoreDescLe, Bool.or_eq_true, decide_eq_true_eq]
  omega

/-- C1: whenever the relevance model's scoring call raises (for a non-blank
query and `top_n > 0`, the states in which the call is reached), `rerank`
does not propagate the error: it returns the original candidates converted
with an absent `rerank_score`, reordered by ascending distance, truncated to
`top_n`. -/
theorem rerank_fallback_on_predict_error
    (predict : List (String × String) → Except String (List Int))
    (query : String) (chunks : List SearchResult) (top_n : Int) (e : String)
    (hq : isBlank query = false) (hn : 0 < top_n)
    (hp : predict (chunks.map fun c => (query, c.chunk_text)) = Except.error e) :
    ∃ l, rerank predict query chunks top_n = Except.ok l
      ∧ l = ((chunks.map mkFallbackChunk).mergeSort distAscLe).take top_n.toNat
      ∧ l.Pairwise (fun a b => a.distance ≤ b.distance)
      ∧ (∀ x ∈ l, x.rerank_score = none)
      ∧ l.length = min top_n.toNat chunks.length
      ∧ List.Perm ((chunks.map mkFallbackChunk).mergeSort distAscLe) (chunks.map mkFallbackChunk) := by
  have hn' : ¬ top_n ≤ 0 := by omega
  have hsorted : ((chunks.map mkFallbackChunk).mergeSort distAscLe).Pairwise
      (fun a b => a.distance ≤ b.distance) := by
    refine List.Pairwise.imp ?_ (List.sorted_mergeSort distAscLe_trans distAscLe_total _)
    intro a b h
    simpa [distAscLe] using h
  have hmem : ∀ x ∈ ((chunks.map mkFallbackChunk).mergeSort distAscLe).take top_n.toNat,
      x.rerank_score = none := by
    intro x hx
    have hx2 : x ∈ (chunks.map mkFallbackChunk).mergeSort distAscLe := List.mem_of_mem_take hx
    rw [List.mem_mergeSort] at hx2
    obtain ⟨c, _, hc⟩ := List.mem_map.mp hx2
    rw [← hc]
    rfl
  by_cases hc : chunks.isEmpty
  · have hcnil : chunks = [] := List.isEmpty_iff.mp hc
    subst hcnil
    refine ⟨[], ?_, ?_, ?_, ?_, ?_, ?_⟩ <;>
      simp [rerank, hq, hn', List.mergeSort]
  · refine ⟨((chunks.map mkFallbackChunk).mergeSort distAscLe).take top_n.toNat, ?_, rfl, ?_, hmem, ?_, ?_⟩
    · simp only [rerank, hq, Bool.false_eq_true, if_false, hn', if_false, hc, hp]
      have : pySliceTo ((chunks.map mkFallbackChunk).mergeSort distAscLe) top_n =
          ((chunks.map mkFallbackChunk).mergeSort distAscLe).take top_n.toNat := by
        simp [pySliceTo, le_of_lt hn]
      rw [this]
    · exact List.Pairwise.sublist (List.take_sublist _ _) hsorted
    · simp
    · exact List.mergeSort_perm _ _

/-- C1 witness at a concrete always-raising scorer. -/
theorem rerank_fallback_on_predict_error_witness :
    isBlank "質問" = false ∧ (0:Int) < 1 ∧
    ∃ l, rerank (fun _ => Except.error "model boom") "質問"
        [{ chunk_id := 1, document_id := 1, filename := "a", chunk_text := "t", distance := 5 },
         { chunk_id := 2, document_id := 1, filename := "b", chunk_text := "u", distance := 3 }] 1
      = Except.ok l
      ∧ (∀ x ∈ l, x.rerank_score = none)
      ∧ l.length = min 1 2 := by
  refine ⟨by decide, by decide, ?_⟩
  obtain ⟨l, h1, _, _, h4, h5, _⟩ := rerank_fallback_on_predict_error
    (fun _ => Except.error "model boom") "質問"
    [{ chunk_id := 1, document_id := 1, filename := "a", chunk_text := "t", distance := 5 },
     { chunk_id := 2, document_id := 1, filename := "b", chunk_text := "u", distance := 3 }] 1
    "model boom" (by decide) (by decide) rfl
  exact ⟨l, h1, h4, by simpa using h5⟩

/-- C5 counterexample: `" "` is a non-empty query and `top_n = 5 > 0`, yet
`rerank` on an empty candidate list raises `RerankError("Query cannot be
empty")` instead of returning the empty sequence — the code rejects any
whitespace-only query before the empty-candidate early return. -/
theorem rerank_nonempty_query_claim_false :
    " " ≠ "" ∧ (0:Int) < 5 ∧
    rerank (fun _ => Except.ok []) " " ([] : List SearchResult) 5 =
      Except.error "Query cannot be empty" := by
  exact ⟨by decide, by decide, rfl⟩

/-- C5 (amended): for every query that is non-blank (non-empty after
stripping whitespace — the validation actually performed) and `top_n > 0`:
when the relevance model scores successfully, `rerank` returns a sequence of
length `min(top_n, len(candidates))` sorted in descending order of relevance
score with every score present; and for an empty candidate list it returns
the empty sequence immediately, without error and independently of the
scoring model. -/
theorem rerank_success_shape
    (predict : List (String × String) → Except String (List Int))
    (query : String) (top_n : Int)
    (hq : isBlank query = false) (hn : 0 < top_n) :
    (∀ (chunks : List SearchResult) (scores : List Int),
      predict (chunks.map fun c => (query, c.chunk_text)) = Except.ok scores →
      scores.length = chunks.length →
      ∃ l, rerank predict query chunks top_n = Except.ok l
        ∧ l.length = min top_n.toNat chunks.length
        ∧ l.Pairwise (fun a b => scoreKey b ≤ scoreKey a)
        ∧ (∀ x ∈ l, ∃ s, x.rerank_score = some s))
    ∧ rerank predict query [] top_n = Except.ok []
    ∧ (∀ p₂, rerank predict query [] top_n = rerank p₂ query [] top_n) := by
  have hn' : ¬ top_n ≤ 0 := by omega
  refine ⟨?_, by simp [rerank, hq, hn'], fun p₂ => by simp [rerank, hq, hn']⟩
  intro chunks scores hp hlen
  by_cases hc : chunks.isEmpty
  · have hcnil : chunks = [] := List.isEmpty_iff.mp hc
    subst hcnil
    exact ⟨[], by simp [rerank, hq, hn'], by simp, by simp, by simp⟩
  · set ranked := (chunks.zip scores).map (fun p => mkScoredChunk p.1 p.2) with hranked
    refine ⟨(ranked.mergeSort scoreDescLe).take top_n.toNat, ?_, ?_, ?_, ?_⟩
    · simp only [rerank, hq, Bool.false_eq_true, if_false, hn', if_false, hc, hp]
      have : pySliceTo (ranked.mergeSort scoreDescLe) top_n =
          (ranked.mergeSort scoreDescLe).take top_n.toNat := by
        simp [pySliceTo, le_of_lt hn]
      rw [this]
    · have : ranked.length = chunks.length := by
        simp [hranked, List.length_zip, hlen]
      simp [this]
    · refine List.Pairwise.sublist (List.take_sublist _ _) ?_
      refine List.Pairwise.imp ?_ (List.sorted_mergeSort scoreDescLe_trans scoreDescLe_total _)
      intro a b h
      simpa [scoreDescLe] using h
    · intro x hx
      have hx2 : x ∈ ranked.mergeSort scoreDescLe := List.mem_of_mem_take hx
      rw [List.mem_mergeSort] at hx2
      obtain ⟨p, _, hpx⟩ := List.mem_map.mp hx2
      exact ⟨p.2, by rw [← hpx]; rfl⟩

/-- C5 witness at a concrete successful scorer. -/
theorem rerank_success_shape_witness :
    isBlank "質問" = false ∧ (0:Int) < 5 ∧
    ∃ l, rerank (fun _ => Except.ok [10, 20]) "質問"
        [{ chunk_id := 1, document_id := 1, filename := "a", chunk_text := "t", distance := 5 },
         { chunk_id := 2, document_id := 1, filename := "b", chunk_text := "u", distance := 3 }] 5
      = Except.ok l
      ∧ l.length = min 5 2
      ∧ l.Pairwise (fun a b => scoreKey b ≤ scoreKey a) := by
  refine ⟨by decide, by decide, ?_⟩
  obtain ⟨h1, _, _⟩ := rerank_success_shape (fun _ => Except.ok [10, 20]) "質問" 5
    (by decide) (by decide)
  obtain ⟨l, hl1, hl2, hl3, _⟩ := h1
    [{ chunk_id := 1, document_id := 1, filename := "a", chunk_text := "t", distance := 5 },
     { chunk_id := 2, document_id := 1, filename := "b", chunk_text := "u", distance := 3 }]
    [10, 20] rfl rfl
  exact ⟨l, hl1, by simpa using hl2, hl3⟩

/-! ### Model-family dispatch and token ceilings (claim C8) -/

/-- C8: `generate` sends a family-A (`CohereChatRequest`) request exactly when
the model identifier in use contains the substring `"cohere"`
case-insensitively, and the `max_tokens` field actually sent equals
`min(requested, 4000)` for family-A models and `min(requested, 128000)` for
all other models. -/
theorem generate_family_dispatch_and_token_ceiling
    (chat : Nat → ChatRequestShape → CallOutcome) (cfg : GenConfig)
    (query : String) (contexts : List RankedChunk) (mdl : Option String)
    (maxTokens : Int) (topK : Int) (answerPrompt : String) :
    (isCohereShape (generate chat cfg query contexts mdl maxTokens topK answerPrompt).request = true
       ↔ "cohere".data <:+: lowerChars (chooseModel cfg mdl))
    ∧ requestMaxTokens (generate chat cfg query contexts mdl maxTokens topK answerPrompt).request =
        (if "cohere".data <:+: lowerChars (chooseModel cfg mdl)
         then min maxTokens 4000 else min maxTokens 128000) := by
  rw [generate_eq_trace]
  by_cases h : "cohere".data <:+: lowerChars (chooseModel cfg mdl)
  · constructor
    · simp [generateRequest, usesCohereRequest, h, isCohereShape]
    · simp [generateRequest, usesCohereRequest, h, requestMaxTokens,
        get_adjusted_max_tokens, MAX_TOKENS_LIMIT]
  · constructor
    · simp [generateRequest, usesCohereRequest, h, isCohereShape]
    · simp [generateRequest, usesCohereRequest, h, requestMaxTokens,
        get_adjusted_max_tokens, MAX_TOKENS_LIMIT]

/-! ### Batch orchestration (claims C4, C6, C7, C10) -/

theorem invokeCallback_ok (cb : Option (String → Except String Unit)) (msg : String)
    (hcb : ∀ f, cb = some f → ∀ m, f m = Except.ok ()) :
    invokeCallback cb msg = Except.ok (cbEvents cb msg) := by
  cases cb with
  | none => rfl
  | some f =>
    have := hcb f rfl msg
    simp [invokeCallback, this, cbEvents]

/-- With a non-raising (or absent) callback, the batch loop runs to the end:
it returns one output row per input row, the success/failure counts, and the
expected event trace. -/
theorem processRows_ok (ps : String → Option String → Except PipeErr RAGResult)
    (cb : Option (String → Except String Unit)) (n : Nat)
    (hcb : ∀ f, cb = some f → ∀ m, f m = Except.ok ()) :
    ∀ (rows : List QuestionRow) (idx : Nat),
    processRows ps cb n rows idx =
      Except.ok (rows.map (fun q => outRow ps q),
        rows.countP (fun q => rowSucceeds ps q),
        rows.countP (fun q => ! rowSucceeds ps q),
        traceOf ps cb n rows idx) := by
  intro rows
  induction rows with
  | nil => intro idx; rfl
  | cons q rest ih =>
    intro idx
    rw [processRows]
    rw [invokeCallback_ok cb _ hcb]
    cases hr : ps q.question (effectiveFilter q.filter) with
    | ok r =>
      simp only [bind, Except.bind, hr, ih (idx + 1), Except.ok.injEq, Prod.mk.injEq]
      refine ⟨?_, ?_, ?_, ?_⟩
      · simp [outRow, hr]
      · simp [List.countP_cons, rowSucceeds, hr]
      · simp [List.countP_cons, rowSucceeds, hr]
      · simp [traceOf, hr]
    | error e =>
      simp only [bind, Except.bind, hr]
      rw [invokeCallback_ok cb _ hcb]
      simp only [ih (idx + 1), Except.ok.injEq, Prod.mk.injEq]
      refine ⟨?_, ?_, ?_, ?_⟩
      · simp [outRow, hr]
      · simp [List.countP_cons, rowSucceeds, hr]
      · simp [List.countP_cons, rowSucceeds, hr]
      · simp [traceOf, hr]

/-- With a non-raising (or absent) callback, `process_batch` succeeds and its
result is described row-by-row. -/
theorem process_batch_ok (ps : String → Option String → Except PipeErr RAGResult)
    (cb : Option (String → Except String Unit)) (rows : List QuestionRow)
    (hcb : ∀ f, cb = some f → ∀ m, f m = Except.ok ()) :
    process_batch ps cb rows =
      Except.ok ({ total_questions := rows.length,
                   successful := rows.countP (fun q => rowSucceeds ps q),
                   failed := rows.countP (fun q => ! rowSucceeds ps q),
                   results_df := rows.map (fun q => outRow ps q) },
                 traceOf ps cb rows.length rows 0) := by
  rw [process_batch, processRows_ok ps cb rows.length hcb rows 0]

/-- C4: for every input table (with its required `question` column) and every
behaviour of the per-row Search/Rerank/Generate sequence, `process_batch`
never lets a per-row exception escape: it returns a `BatchResult` with
`successful + failed = total_questions = ` the number of input rows, each
failing row recorded with status `failed`, the raised error's message and an
empty answer, and every non-failing row recorded with status `success`. -/
theorem process_batch_isolation_and_totals
    (ps : String → Option String → Except PipeErr RAGResult)
    (cb : Option (String → Except String Unit)) (rows : List QuestionRow)
    (hcb : ∀ f, cb = some f → ∀ m, f m = Except.ok ()) :
    ∃ br evs, process_batch ps cb rows = Except.ok (br, evs)
      ∧ br.total_questions = rows.length
      ∧ br.successful + br.failed = br.total_questions
      ∧ br.results_df.length = rows.length
      ∧ (∀ i q, rows.get? i = some q →
          (∀ r, ps q.question (effectiveFilter q.filter) = Except.ok r →
            br.results_df.get? i = some (successRow q r)
            ∧ (successRow q r).status = RowStatus.success)
          ∧ (∀ e, ps q.question (effectiveFilter q.filter) = Except.error e →
            br.results_df.get? i = some (failedRow q e)
            ∧ (failedRow q e).status = RowStatus.failed
            ∧ (failedRow q e).error = some (pipeErrStr e)
            ∧ (failedRow q e).answer = some "")) := by
  refine ⟨_, _, process_batch_ok ps cb rows hcb, rfl, ?_, by simp, ?_⟩
  · have := List.length_eq_countP_add_countP (p := fun q => rowSucceeds ps q) rows
    simpa using this.symm
  · intro i q hq
    have hget : (rows.map (fun q => outRow ps q)).get? i = some (outRow ps q) := by
      rw [List.get?_map, hq]
      rfl
    constructor
    · intro r hr
      refine ⟨?_, rfl⟩
      rw [hget]
      simp [outRow, hr]
    · intro e he
      refine ⟨?_, rfl, rfl, rfl⟩
      rw [hget]
      simp [outRow, he]

/-- C4 witness: a two-row batch whose second row's processing raises. -/
theorem process_batch_isolation_and_totals_witness :
    (∀ f, (none : Option (String → Except String Unit)) = some f →
      ∀ m, f m = Except.ok ()) ∧
    ∃ br evs,
      process_batch
        (fun q _ => if q = "q2" then Except.error (PipeErr.vectorSearch "store down")
          else Except.ok { question := q, answer := "a", contexts := "", vector_search_time := 0,
                           rerank_time := 0, generation_time := 0, total_time := 0,
                           model_used := "m" })
        none [{ question := "q1", filter := none }, { question := "q2", filter := none }]
        = Except.ok (br, evs)
      ∧ br.total_questions = 2
      ∧ br.successful + br.failed = br.total_questions := by
  refine ⟨(by intro f h; cases h), ?_⟩
  obtain ⟨br, evs, h1, h2, h3, _, _⟩ := process_batch_isolation_and_totals
    (fun q _ => if q = "q2" then Except.error (PipeErr.vectorSearch "store down")
      else Except.ok { question := q, answer := "a", contexts := "", vector_search_time := 0,
                       rerank_time := 0, generation_time := 0, total_time := 0,
                       model_used := "m" })
    none [{ question := "q1", filter := none }, { question := "q2", filter := none }]
    (by intro f h; cases h)
  exact ⟨br, evs, h1, by simpa using h2, h3⟩

/-- C10: a failed batch row's output record is written exactly as the failure
branch writes it: `answer` and `contexts` set to the empty string, `status`
set to `failed`, `error` set to the exception's message — while all four
timing columns keep their initialisation value `0` and `model_used` stays
`None`. -/
theorem process_batch_failed_row_frame
    (ps : String → Option String → Except PipeErr RAGResult)
    (cb : Option (String → Except String Unit)) (rows : List QuestionRow)
    (i : Nat) (q : QuestionRow) (e : PipeErr)
    (hcb : ∀ f, cb = some f → ∀ m, f m = Except.ok ())
    (hq : rows.get? i = some q)
    (he : ps q.question (effectiveFilter q.filter) = Except.error e) :
    ∃ br evs, process_batch ps cb rows = Except.ok (br, evs)
      ∧ br.results_df.get? i = some
          { question := q.question, filter := q.filter,
            answer := some "", contexts := some "",
            vector_search_time := 0, rerank_time := 0, generation_time := 0,
            total_time := 0, model_used := none,
            status := RowStatus.failed, error := some (pipeErrStr e) } := by
  refine ⟨_, _, process_batch_ok ps cb rows hcb, ?_⟩
  have hget : (rows.map (fun q => outRow ps q)).get? i = some (outRow ps q) := by
    rw [List.get?_map, hq]
    rfl
  rw [hget]
  simp [outRow, he, failedRow, initRow]

/-- C10 witness: a one-row batch whose row fails. -/
theorem process_batch_failed_row_frame_witness :
    ∃ br evs,
      process_batch (fun _ _ => Except.error (PipeErr.generationErr "llm down")) none
        [{ question := "q1", filter := none }] = Except.ok (br, evs)
      ∧ br.results_df.get? 0 = some
          { question := "q1", filter := none,
            answer := some "", contexts := some "",
            vector_search_time := 0, rerank_time := 0, generation_time := 0,
            total_time := 0, model_used := none,
            status := RowStatus.failed, error := some "llm down" } := by
  exact process_batch_failed_row_frame
    (fun _ _ => Except.error (PipeErr.generationErr "llm down")) none
    [{ question := "q1", filter := none }] 0 { question := "q1", filter := none }
    (PipeErr.generationErr "llm down") (by intro f h; cases h) rfl rfl

/-- In the trace of a supplied, non-raising callback, every row's outcome
event is preceded by a callback event. -/
theorem traceOf_cb_before_row (ps : String → Option String → Except PipeErr RAGResult)
    (f : String → Except String Unit) (n : Nat) :
    ∀ (rows : List QuestionRow) (idx i : Nat), i < rows.length →
    ∃ t₁ t₂ m st, traceOf ps (some f) n rows idx = t₁ ++ BEvent.cb m :: t₂
      ∧ BEvent.rowDone (idx + i) st ∈ t₂ := by
  intro rows
  induction rows with
  | nil => intro idx i hi; simp at hi
  | cons q rest ih =>
    intro idx i hi
    cases i with
    | zero =>
      cases hr : ps q.question (effectiveFilter q.filter) with
      | ok r =>
        refine ⟨[], BEvent.rowDone idx RowStatus.success :: traceOf ps (some f) n rest (idx + 1),
          progressMsg idx n q.question, RowStatus.success, ?_, ?_⟩
        · simp [traceOf, hr, cbEvents]
        · simp
      | error e =>
        refine ⟨[], BEvent.rowDone idx RowStatus.failed ::
            (cbEvents (some f) (errorCbMsg idx e) ++ traceOf ps (some f) n rest (idx + 1)),
          progressMsg idx n q.question, RowStatus.failed, ?_, ?_⟩
        · simp [traceOf, hr, cbEvents]
        · simp
    | succ i =>
      obtain ⟨t₁, t₂, m, st, hsplit, hmem⟩ := ih (idx + 1) i (by simpa using hi)
      cases hr : ps q.question (effectiveFilter q.filter) with
      | ok r =>
        refine ⟨BEvent.cb (progressMsg idx n q.question)
            :: BEvent.rowDone idx RowStatus.success :: t₁, t₂, m, st, ?_, ?_⟩
        · simp [traceOf, hr, cbEvents, hsplit]
        · have : idx + (i + 1) = idx + 1 + i := by omega
          rw [this]
          exact hmem
      | error e =>
        refine ⟨BEvent.cb (progressMsg idx n q.question)
            :: BEvent.rowDone idx RowStatus.failed
            :: BEvent.cb (errorCbMsg idx e) :: t₁, t₂, m, st, ?_, ?_⟩
        · simp [traceOf, hr, cbEvents, hsplit]
        · have : idx + (i + 1) = idx + 1 + i := by omega
          rw [this]
          exact hmem

/-- C6 counterexample: a supplied progress callback that raises makes
`process_batch` itself raise — the batch is aborted by the callback's
exception, and no `BatchResult` is produced at all. -/
theorem process_batch_callback_exception_aborts :
    process_batch (fun _ _ => Except.ok
        { question := "q1", answer := "a", contexts := "", vector_search_time := 0,
          rerank_time := 0, generation_time := 0, total_time := 0, model_used := "m" })
      (some fun _ => Except.error "callback failure")
      [{ question := "q1", filter := none }] = Except.error "callback failure" := by
  rfl

/-- C6 (amended): when a progress callback is supplied and does not raise, it
is invoked at least once per row before that row's outcome is recorded; but
an exception raised by the callback propagates out of `process_batch` and
aborts the batch (the invocations at lines 267-268 and 299-300 of
`rag_pipeline.py` are outside the per-row `try`). -/
theorem process_batch_callback_before_each_row
    (ps : String → Option String → Except PipeErr RAGResult)
    (f₁ f₂ : String → Except String Unit) (rows : List QuestionRow) :
    ((∀ m, f₁ m = Except.ok ()) →
      ∃ br evs, process_batch ps (some f₁) rows = Except.ok (br, evs)
        ∧ ∀ i, i < rows.length →
            ∃ t₁ t₂ m st, evs = t₁ ++ BEvent.cb m :: t₂ ∧ BEvent.rowDone i st ∈ t₂)
    ∧ (∀ q rest m, rows = q :: rest →
        f₂ (progressMsg 0 rows.length q.question) = Except.error m →
        process_batch ps (some f₂) rows = Except.error m) := by
  constructor
  · intro hok
    refine ⟨_, _, process_batch_ok ps (some f₁) rows
      (by intro f h m; cases h; exact hok m), ?_⟩
    intro i hi
    have := traceOf_cb_before_row ps f₁ rows.length rows 0 i hi
    simpa using this
  · intro q rest m hrows hf
    subst hrows
    simp only [List.length_cons] at hf
    rw [process_batch, processRows]
    simp [invokeCallback, hf, bind, Except.bind]

/-- C6 witness: a non-raising callback on a one-row batch, and a raising
callback aborting the same batch. -/
theorem process_batch_callback_before_each_row_witness :
    (∃ br evs, process_batch (fun _ _ => Except.error (PipeErr.vectorSearch "x"))
        (some fun _ => Except.ok ()) [{ question := "a", filter := none }]
        = Except.ok (br, evs)
      ∧ ∀ i, i < 1 →
          ∃ t₁ t₂ m st, evs = t₁ ++ BEvent.cb m :: t₂ ∧ BEvent.rowDone i st ∈ t₂)
    ∧ process_batch (fun _ _ => Except.error (PipeErr.vectorSearch "x"))
        (some fun _ => Except.error "boom") [{ question := "a", filter := none }]
        = Except.error "boom" := by
  have h := process_batch_callback_before_each_row
    (fun _ _ => Except.error (PipeErr.vectorSearch "x"))
    (fun _ => Except.ok ()) (fun _ => Except.error "boom")
    [{ question := "a", filter := none }]
  obtain ⟨br, evs, h1, h2⟩ := h.1 (fun m => rfl)
  exact ⟨⟨br, evs, h1, by simpa using h2⟩,
    h.2 { question := "a", filter := none } [] "boom" rfl rfl⟩

/-- For a non-blank query and `top_n > 0`, `rerank` never raises: both the
scoring and the fallback branch return a value. -/
theorem rerank_never_errors (predict : List (String × String) → Except String (List Int))
    (query : String) (chunks : List SearchResult) (top_n : Int)
    (hq : isBlank query = false) (hn : 0 < top_n) :
    ∃ l, rerank predict query chunks top_n = Except.ok l := by
  have hn' : ¬ top_n ≤ 0 := by omega
  by_cases hc : chunks.isEmpty
  · exact ⟨[], by simp [rerank, hq, hn', hc]⟩
  · cases hp : predict (chunks.map fun c => (query, c.chunk_text)) with
    | ok scores =>
      refine ⟨pySliceTo (((chunks.zip scores).map fun p => mkScoredChunk p.1 p.2).mergeSort
        scoreDescLe) top_n, ?_⟩
      simp [rerank, hq, hn', hc, hp]
    | error e =>
      refine ⟨pySliceTo ((chunks.map mkFallbackChunk).mergeSort distAscLe) top_n, ?_⟩
      simp [rerank, hq, hn', hc, hp]

/-- C7 counterexample: a batch row whose question is the non-empty,
whitespace-only string `" "` passes `VectorSearcher`'s emptiness validation
(which only rejects `""`), but `rerank` then raises
`RerankError("Query cannot be empty")` — a `RerankError` that propagates out
of the rerank stage into `process_batch`'s per-row handler and marks the row
failed. -/
theorem rerank_error_reaches_batch_layer :
    process_single
        (fun _ _ _ => Except.ok
          [{ chunk_id := 1, document_id := 1, filename := "a.txt", chunk_text := "body",
             distance := 0 }])
        (fun _ => Except.ok [0]) (fun _ _ => Except.error (GenError.answerGeneration "unreached"))
        { enable_reranking := true, top_k := 10, rerank_top_n := 5 } " " none
      = Except.error (PipeErr.rerankErr "Query cannot be empty")
    ∧ process_batch
        (fun q fl => process_single
          (fun _ _ _ => Except.ok
            [{ chunk_id := 1, document_id := 1, filename := "a.txt", chunk_text := "body",
               distance := 0 }])
          (fun _ => Except.ok [0]) (fun _ _ => Except.error (GenError.answerGeneration "unreached"))
          { enable_reranking := true, top_k := 10, rerank_top_n := 5 } q fl)
        none [{ question := " ", filter := none }]
      = Except.ok
          ({ total_questions := 1, successful := 0, failed := 1,
             results_df := [{ question := " ", filter := none,
                              answer := some "", contexts := some "",
                              status := RowStatus.failed,
                              error := some "Query cannot be empty" }] },
           [BEvent.rowDone 0 RowStatus.failed]) := by
  exact ⟨rfl, rfl⟩

/-- C7 (amended): for every batch row whose question is non-blank (non-empty
after stripping whitespace) and whenever the pipeline's `rerank_top_n` is
positive, no `RerankError` propagates out of the rerank stage: any failure
`process_single` hands to `process_batch`'s per-row handler is a
`VectorSearcher` failure or an `AnswerGenerator` failure (generic or
rate-limit). -/
theorem process_single_no_rerank_error
    (so : String → Option String → Int → Except String (List SearchResult))
    (predict : List (String × String) → Except String (List Int))
    (gen : String → List RankedChunk → Except GenError GeneratedAnswer)
    (cfg : PipelineConfig) (question : String) (filtering : Option String)
    (hq : isBlank question = false) (hn : 0 < cfg.rerank_top_n) :
    ∀ e, process_single so predict gen cfg question filtering = Except.error e →
      (∃ m, e = PipeErr.vectorSearch m) ∨ (∃ m, e = PipeErr.generationErr m)
        ∨ (∃ m, e = PipeErr.rateLimit m) := by
  intro e he
  rw [process_single] at he
  cases hs : search so question cfg.top_k filtering with
  | error m =>
    rw [hs] at he
    simp only [Except.mapError, bind, Except.bind] at he
    cases he
    exact Or.inl ⟨m, rfl⟩
  | ok srs =>
    rw [hs] at he
    simp only [Except.mapError, bind, Except.bind] at he
    by_cases hrk : cfg.enable_reranking
    · obtain ⟨l, hl⟩ := rerank_never_errors predict question srs cfg.rerank_top_n hq hn
      rw [if_pos hrk, hl] at he
      simp only [Except.mapError, bind, Except.bind] at he
      cases hg : gen question l with
      | error ge =>
        rw [hg] at he
        cases ge with
        | answerGeneration m => cases he; exact Or.inr (Or.inl ⟨m, rfl⟩)
        | rateLimit m => cases he; exact Or.inr (Or.inr ⟨m, rfl⟩)
      | ok ga => rw [hg] at he; cases he
    · rw [if_neg hrk] at he
      cases hg : gen question ((pySliceTo srs cfg.rerank_top_n).map mkFallbackChunk) with
      | error ge =>
        rw [hg] at he
        cases ge with
        | answerGeneration m => cases he; exact Or.inr (Or.inl ⟨m, rfl⟩)
        | rateLimit m => cases he; exact Or.inr (Or.inr ⟨m, rfl⟩)
      | ok ga => rw [hg] at he; cases he

/-- C7 witness: a concrete single-row failure, which is a generation
failure. -/
theorem process_single_no_rerank_error_witness :
    isBlank "質問" = false ∧ (0:Int) < 5 ∧
    ((∃ m, PipeErr.generationErr "llm down" = PipeErr.vectorSearch m)
      ∨ (∃ m, PipeErr.generationErr "llm down" = PipeErr.generationErr m)
      ∨ (∃ m, PipeErr.generationErr "llm down" = PipeErr.rateLimit m)) := by
  refine ⟨by decide, by decide, ?_⟩
  exact process_single_no_rerank_error
    (fun _ _ _ => Except.ok []) (fun _ => Except.ok [])
    (fun _ _ => Except.error (GenError.answerGeneration "llm down"))
    { enable_reranking := true, top_k := 10, rerank_top_n := 5 } "質問" none
    (by decide) (by decide) (PipeErr.generationErr "llm down") rfl

/-! ### Grounding-text serialization round trip (claim C9) -/

theorem pySplitNl_ne_nil : ∀ s : List Char, pySplitNl s ≠ [] := by
  intro s
  induction s with
  | nil => simp [pySplitNl]
  | cons c rest ih =>
    rw [pySplitNl]
    by_cases hc : c = '\n'
    · simp [hc]
    · simp only [hc, if_false]
      cases h : pySplitNl rest with
      | nil => simp
      | cons hd tl => simp

theorem pySplitNl_cons_newline (rest : List Char) :
    pySplitNl ('\n' :: rest) = [] :: pySplitNl rest := by
  rw [pySplitNl, if_pos rfl]

theorem pySplitNl_cons_of_ne (c : Char) (rest : List Char) (hd : List Char)
    (tl : List (List Char)) (hc : c ≠ '\n') (h : pySplitNl rest = hd :: tl) :
    pySplitNl (c :: rest) = (c :: hd) :: tl := by
  rw [pySplitNl, if_neg hc, h]

theorem pySplitNl_append_newline :
    ∀ x y : List Char, pySplitNl (x ++ '\n' :: y) = pySplitNl x ++ pySplitNl y := by
  intro x y
  induction x with
  | nil => simp [pySplitNl_cons_newline, pySplitNl]
  | cons c rest ih =>
    by_cases hc : c = '\n'
    · subst hc
      rw [List.cons_append, pySplitNl_cons_newline, ih, pySplitNl_cons_newline,
        List.cons_append]
    · obtain ⟨hd, tl, h⟩ : ∃ hd tl, pySplitNl rest = hd :: tl := by
        cases h : pySplitNl rest with
        | nil => exact absurd h (pySplitNl_ne_nil rest)
        | cons hd tl => exact ⟨hd, tl, rfl⟩
      have h2 : pySplitNl (rest ++ '\n' :: y) = hd :: (tl ++ pySplitNl y) := by
        rw [ih, h, List.cons_append]
      rw [List.cons_append, pySplitNl_cons_of_ne c _ hd (tl ++ pySplitNl y) hc h2,
        pySplitNl_cons_of_ne c rest hd tl hc h, List.cons_append]

theorem pySplitNl_no_newline :
    ∀ s : List Char, ('\n' : Char) ∉ s → pySplitNl s = [s] := by
  intro s
  induction s with
  | nil => intro _; rfl
  | cons c rest ih =>
    intro hnot
    have hc : c ≠ '\n' := fun h => hnot (h ▸ List.mem_cons_self c rest)
    have hrest : ('\n' : Char) ∉ rest := fun h => hnot (List.mem_cons_of_mem c h)
    rw [pySplitNl, if_neg hc, ih hrest]

/-- Re-joining split lines with a `'\n'` after each line. -/
def joinNl (ls : List (List Char)) : List Char :=
  ls.foldr (fun l r => l ++ '\n' :: r) []

theorem joinNl_cons (l : List Char) (ls : List (List Char)) :
    joinNl (l :: ls) = l ++ '\n' :: joinNl ls := by
  rfl

theorem joinNl_pySplitNl : ∀ t : List Char, joinNl (pySplitNl t) = t ++ ['\n'] := by
  intro t
  induction t with
  | nil => rfl
  | cons c rest ih =>
    by_cases hc : c = '\n'
    · subst hc
      rw [pySplitNl_cons_newline, joinNl_cons, ih]
      simp
    · obtain ⟨hd, tl, h⟩ : ∃ hd tl, pySplitNl rest = hd :: tl := by
        cases h : pySplitNl rest with
        | nil => exact absurd h (pySplitNl_ne_nil rest)
        | cons hd tl => exact ⟨hd, tl, rfl⟩
      rw [pySplitNl_cons_of_ne c rest hd tl hc h]
      rw [h, joinNl_cons] at ih
      rw [joinNl_cons, List.cons_append, ih]
      simp

theorem pyRStrip_append_ws (a : List Char) (w : Char) (hw : isPySpace w = true) :
    pyRStrip (a ++ [w]) = pyRStrip a := by
  simp [pyRStrip, hw]

theorem pyRStrip_append_clean (a b : List Char) (hb : b ≠ [])
    (hclean : pyRStrip b = b) : pyRStrip (a ++ b) = a ++ b := by
  have hrev : b.reverse.dropWhile isPySpace = b.reverse := by
    have := congrArg List.reverse hclean
    simpa [pyRStrip] using this
  obtain ⟨c, bs, hcb⟩ : ∃ c bs, b.reverse = c :: bs := by
    cases hb2 : b.reverse with
    | nil => exact absurd (by simpa using congrArg List.reverse hb2) hb
    | cons c bs => exact ⟨c, bs, rfl⟩
  have hc : ¬ isPySpace c = true := by
    rw [hcb] at hrev
    intro hctrue
    rw [List.dropWhile_cons_of_pos hctrue] at hrev
    have hlen := congrArg List.length hrev
    have hle := (List.dropWhile_sublist (l := bs) isPySpace).length_le
    simp at hlen
    omega
  rw [pyRStrip, List.reverse_append, hcb, List.cons_append,
    List.dropWhile_cons_of_neg hc, ← List.cons_append, ← hcb, ← List.reverse_append,
    List.reverse_reverse]

theorem pyStrip_append_ws (a : List Char) (w : Char) (hw : isPySpace w = true) :
    pyStrip (a ++ [w]) = pyStrip a := by
  rw [pyStrip, pyRStrip_append_ws a w hw, pyStrip]

theorem pyLStrip_cons_of_neg (c : Char) (s : List Char) (hc : isPySpace c = false) :
    pyLStrip (c :: s) = c :: s := by
  have hc2 : ¬ isPySpace c = true := by simp [hc]
  simp [pyLStrip, List.dropWhile_cons_of_neg hc2]

theorem digitChar_mem (d : Nat) :
    digitChar d ∈ ['0', '1', '2', '3', '4', '5', '6', '7', '8', '9'] := by
  unfold digitChar
  split <;> decide

theorem natCharsAux_mem :
    ∀ (n : Nat) (acc : List Char) (c : Char), c ∈ natCharsAux n acc →
      c ∈ ['0', '1', '2', '3', '4', '5', '6', '7', '8', '9'] ∨ c ∈ acc := by
  intro n
  induction n using Nat.strong_induction_on with
  | _ n ih =>
    intro acc c hc
    rw [natCharsAux] at hc
    by_cases h : n < 10
    · rw [dif_pos h] at hc
      rcases List.mem_cons.mp hc with h1 | h2
      · exact Or.inl (h1 ▸ digitChar_mem n)
      · exact Or.inr h2
    · rw [dif_neg h] at hc
      have hdiv : n / 10 < n := Nat.div_lt_self (by omega) (by omega)
      rcases ih (n / 10) hdiv _ c hc with h1 | h2
      · exact Or.inl h1
      · rcases List.mem_cons.mp h2 with h3 | h4
        · exact Or.inl (h3 ▸ digitChar_mem (n % 10))
        · exact Or.inr h4

theorem natChars_mem (n : Nat) (c : Char) (hc : c ∈ natChars n) :
    c ∈ ['0', '1', '2', '3', '4', '5', '6', '7', '8', '9'] := by
  rcases natCharsAux_mem n [] c hc with h | h
  · exact h
  · cases h

theorem natChars_not_newline (n : Nat) (c : Char) (hc : c ∈ natChars n) : c ≠ '\n' := by
  have := natChars_mem n c hc
  fin_cases this <;> decide

theorem natChars_not_colon (n : Nat) (c : Char) (hc : c ∈ natChars n) : c ≠ ':' := by
  have := natChars_mem n c hc
  fin_cases this <;> decide

/-- The tag line decomposed around its `": "` separator. -/
theorem headerOf_decompose (i : Nat) (f : String) :
    headerOf i f =
      ("[ドキュメント ".data ++ natChars (i + 1)) ++ ':' :: ' ' :: (f.data ++ [']']) := by
  show "[ドキュメント ".data ++ natChars (i + 1) ++ ": ".data ++ f.data ++ "]".data = _
  have h1 : ": ".data = [':', ' '] := rfl
  have h2 : "]".data = [']'] := rfl
  rw [h1, h2]
  simp

theorem headerOf_no_newline (i : Nat) (f : String) (hf : ('\n' : Char) ∉ f.data) :
    ('\n' : Char) ∉ headerOf i f := by
  rw [headerOf_decompose]
  intro hmem
  rcases List.mem_append.mp hmem with h | h
  · rcases List.mem_append.mp h with h1 | h2
    · revert h1; decide
    · exact natChars_not_newline (i + 1) _ h2 rfl
  · rcases List.mem_cons.mp h with h1 | h2
    · exact absurd h1 (by decide)
    · rcases List.mem_cons.mp h2 with h3 | h4
      · exact absurd h3 (by decide)
      · rcases List.mem_append.mp h4 with h5 | h6
        · exact hf h5
        · revert h6; decide

theorem headerOf_no_colon_before_sep (i : Nat) (c : Char)
    (hc : c ∈ "[ドキュメント ".data ++ natChars (i + 1)) : c ≠ ':' := by
  rcases List.mem_append.mp hc with h | h
  · fin_cases h <;> decide
  · exact natChars_not_colon (i + 1) c h

theorem isPrefixOf_append_self (l t : List Char) : l.isPrefixOf (l ++ t) = true := by
  induction l with
  | nil => simp
  | cons a as ih => simp [List.isPrefixOf_cons₂, ih]

theorem docMarker_isPrefixOf_headerOf (i : Nat) (f : String) :
    docMarker.isPrefixOf (headerOf i f) = true := by
  have h : headerOf i f =
      docMarker ++ (' ' :: (natChars (i + 1) ++ ": ".data ++ f.data ++ "]".data)) := by
    show "[ドキュメント ".data ++ natChars (i + 1) ++ ": ".data ++ f.data ++ "]".data = _
    have h1 : "[ドキュメント ".data = docMarker ++ [' '] := rfl
    rw [h1]
    simp
  rw [h]
  exact isPrefixOf_append_self docMarker _

theorem docMarker_not_isPrefixOf_nil : docMarker.isPrefixOf ([] : List Char) = false := by
  rfl

theorem headerOf_head (i : Nat) (f : String) :
    ∃ rest, headerOf i f = '[' :: rest := by
  refine ⟨'ド' :: 'キ' :: 'ュ' :: 'メ' :: 'ン' :: 'ト' :: ' ' ::
    (natChars (i + 1) ++ ": ".data ++ f.data ++ "]".data), ?_⟩
  show "[ドキュメント ".data ++ natChars (i + 1) ++ ": ".data ++ f.data ++ "]".data = _
  have h1 : "[ドキュメント ".data = '[' :: 'ド' :: 'キ' :: 'ュ' :: 'メ' :: 'ン' :: 'ト' :: [' '] := rfl
  rw [h1]
  simp

/-- Stripping one serialized block only trims the tag/text seam when the text
is empty; a right-stripped text is untouched. -/
theorem pyStrip_blockOf (i : Nat) (c : RankedChunk)
    (ht : pyRStrip c.chunk_text.data = c.chunk_text.data) :
    pyStrip (blockOf i c) =
      headerOf i c.filename ++
        (if c.chunk_text.data = [] then [] else '\n' :: c.chunk_text.data) := by
  obtain ⟨rest, hhead⟩ := headerOf_head i c.filename
  have hrs_header : pyRStrip (headerOf i c.filename) = headerOf i c.filename := by
    rw [headerOf_decompose]
    have : ("[ドキュメント ".data ++ natChars (i + 1)) ++ ':' :: ' ' :: (c.filename.data ++ [']'])
        = (("[ドキュメント ".data ++ natChars (i + 1)) ++ ':' :: ' ' :: c.filename.data) ++ [']'] := by
      simp
    rw [this]
    exact pyRStrip_append_clean _ [']'] (by simp) (by decide)
  by_cases hempty : c.chunk_text.data = []
  · rw [if_pos hempty]
    show pyStrip (headerOf i c.filename ++ '\n' :: c.chunk_text.data) = _
    rw [hempty]
    show pyStrip (headerOf i c.filename ++ ['\n']) = _
    rw [pyStrip, pyRStrip_append_ws _ '\n' (by decide), hrs_header, hhead,
      pyLStrip_cons_of_neg '[' rest (by decide), ← hhead]
    simp
  · rw [if_neg hempty]
    show pyStrip (headerOf i c.filename ++ '\n' :: c.chunk_text.data) = _
    have hsplit : headerOf i c.filename ++ '\n' :: c.chunk_text.data
        = (headerOf i c.filename ++ ['\n']) ++ c.chunk_text.data := by simp
    rw [pyStrip, hsplit, pyRStrip_append_clean _ _ hempty ht, ← hsplit, hhead]
    rw [List.cons_append, pyLStrip_cons_of_neg '[' _ (by decide), ← List.cons_append, ← hhead]

/-- Consuming a run of non-tag lines only extends `current_doc`. -/
theorem parseLoop_skip_lines :
    ∀ (ls rest : List (List Char)) (current : List Char) (acc : List (List Char)),
    (∀ l ∈ ls, docMarker.isPrefixOf l = false) →
    parseLoop (ls ++ rest) current acc = parseLoop rest (current ++ joinNl ls) acc := by
  intro ls
  induction ls with
  | nil => intro rest current acc _; simp [joinNl]
  | cons l ls' ih =>
    intro rest current acc hml
    have hl : docMarker.isPrefixOf l = false := hml l (List.mem_cons_self l ls')
    rw [List.cons_append, parseLoop, hl]
    simp only [Bool.false_eq_true, if_false]
    rw [ih rest _ acc (fun x hx => hml x (List.mem_cons_of_mem l hx)), joinNl_cons]
    simp

/-- The parse loop over the remaining separator-plus-block groups, with a
non-empty pending `current_doc`: it flushes the pending document and then one
stripped block per chunk. -/
theorem parseLoop_sepGroups :
    ∀ (cs : List RankedChunk) (i : Nat) (p : List Char) (acc : List (List Char)),
    p ≠ [] →
    (∀ c ∈ cs, pyRStrip c.chunk_text.data = c.chunk_text.data) →
    (∀ c ∈ cs, ∀ l ∈ pySplitNl c.chunk_text.data, docMarker.isPrefixOf l = false) →
    parseLoop (sepGroups i cs) p acc = acc ++ pyStrip p :: strippedBlocks i cs := by
  intro cs
  induction cs with
  | nil =>
    intro i p acc hp _ _
    rw [sepGroups, parseLoop, if_neg (by simpa using hp)]
    rfl
  | cons c cs' ih =>
    intro i p acc hp hrs hml
    rw [sepGroups]
    rw [List.cons_append, parseLoop, docMarker_not_isPrefixOf_nil]
    simp only [Bool.false_eq_true, if_false, List.nil_append]
    rw [List.cons_append, parseLoop, docMarker_isPrefixOf_headerOf]
    simp only [if_pos, List.isEmpty_iff]
    rw [if_neg (by simp [hp])]
    simp only [List.append_nil]
    rw [pyStrip_append_ws p '\n' (by decide)]
    rw [parseLoop_skip_lines _ _ _ _ (hml c (List.mem_cons_self c cs'))]
    rw [joinNl_pySplitNl]
    have hp' : headerOf i c.filename ++ '\n' :: (c.chunk_text.data ++ ['\n']) ≠ [] := by
      simp
    have harr : headerOf i c.filename ++ ['\n'] ++ (c.chunk_text.data ++ ['\n'])
        = headerOf i c.filename ++ '\n' :: (c.chunk_text.data ++ ['\n']) := by simp
    rw [harr, ih (i + 1) _ (acc ++ [pyStrip p]) hp'
      (fun x hx => hrs x (List.mem_cons_of_mem c hx))
      (fun x hx => hml x (List.mem_cons_of_mem c hx))]
    have hps : pyStrip (headerOf i c.filename ++ '\n' :: (c.chunk_text.data ++ ['\n']))
        = pyStrip (blockOf i c) := by
      have : headerOf i c.filename ++ '\n' :: (c.chunk_text.data ++ ['\n'])
          = (headerOf i c.filename ++ '\n' :: c.chunk_text.data) ++ ['\n'] := by simp
      rw [this, pyStrip_append_ws _ '\n' (by decide)]
      rfl
    rw [hps, strippedBlocks]
    simp

/-- Splitting the serialized contexts into lines: the first block's tag line
and text lines, then one separator-led group per further block. -/
theorem pySplitNl_formatBlocks :
    ∀ (cs : List RankedChunk) (i : Nat) (c : RankedChunk),
    (∀ x ∈ c :: cs, ('\n' : Char) ∉ x.filename.data) →
    pySplitNl (formatBlocks i (c :: cs)) =
      (headerOf i c.filename :: pySplitNl c.chunk_text.data) ++ sepGroups (i + 1) cs := by
  intro cs
  induction cs with
  | nil =>
    intro i c hf
    rw [formatBlocks]
    show pySplitNl (headerOf i c.filename ++ '\n' :: c.chunk_text.data) = _
    rw [pySplitNl_append_newline,
      pySplitNl_no_newline _ (headerOf_no_newline i c.filename (hf c (by simp)))]
    simp [sepGroups]
  | cons c₂ cs' ih =>
    intro i c hf
    rw [formatBlocks]
    have hshape : blockOf i c ++ '\n' :: '\n' :: formatBlocks (i + 1) (c₂ :: cs')
        = headerOf i c.filename ++ '\n' ::
            (c.chunk_text.data ++ '\n' :: ('\n' :: formatBlocks (i + 1) (c₂ :: cs'))) := by
      simp [blockOf]
    rw [hshape, pySplitNl_append_newline, pySplitNl_append_newline,
      pySplitNl_cons_newline,
      pySplitNl_no_newline _ (headerOf_no_newline i c.filename (hf c (by simp))),
      ih (i + 1) c₂ (fun x hx => hf x (List.mem_cons_of_mem c hx))]
    rw [sepGroups]
    simp

/-- Under the serialization scheme's constraints, parsing the serialized
non-empty chunk list recovers exactly one stripped block per chunk. -/
theorem parseContexts_formatContexts (c : RankedChunk) (cs : List RankedChunk)
    (hf : ∀ x ∈ c :: cs, ('\n' : Char) ∉ x.filename.data)
    (hrs : ∀ x ∈ c :: cs, pyRStrip x.chunk_text.data = x.chunk_text.data)
    (hml : ∀ x ∈ c :: cs, ∀ l ∈ pySplitNl x.chunk_text.data,
      docMarker.isPrefixOf l = false) :
    parseContexts (formatContexts (c :: cs)) = strippedBlocks 0 (c :: cs) := by
  have hne : (formatBlocks 0 (c :: cs)).isEmpty = false := by
    obtain ⟨rest, hhead⟩ := headerOf_head 0 c.filename
    cases cs <;>
      simp [formatBlocks, blockOf, hhead]
  have hloop : parseLoop (pySplitNl (formatBlocks 0 (c :: cs))) [] []
      = strippedBlocks 0 (c :: cs) := by
    rw [pySplitNl_formatBlocks cs 0 c hf]
    rw [List.cons_append, parseLoop, docMarker_isPrefixOf_headerOf]
    simp only [if_pos, List.isEmpty_nil, if_true]
    rw [parseLoop_skip_lines _ _ _ _ (hml c (List.mem_cons_self c cs)), joinNl_pySplitNl]
    have harr : headerOf 0 c.filename ++ ['\n'] ++ (c.chunk_text.data ++ ['\n'])
        = headerOf 0 c.filename ++ '\n' :: (c.chunk_text.data ++ ['\n']) := by simp
    rw [harr, parseLoop_sepGroups cs 1 _ [] (by simp)
      (fun x hx => hrs x (List.mem_cons_of_mem c hx))
      (fun x hx => hml x (List.mem_cons_of_mem c hx))]
    have hps : pyStrip (headerOf 0 c.filename ++ '\n' :: (c.chunk_text.data ++ ['\n']))
        = pyStrip (blockOf 0 c) := by
      have : headerOf 0 c.filename ++ '\n' :: (c.chunk_text.data ++ ['\n'])
          = (headerOf 0 c.filename ++ '\n' :: c.chunk_text.data) ++ ['\n'] := by simp
      rw [this, pyStrip_append_ws _ '\n' (by decide)]
      rfl
    rw [hps, strippedBlocks]
    simp
  rw [formatContexts, parseContexts, if_neg (by simp [hne]), hloop]
  have : (strippedBlocks 0 (c :: cs)).isEmpty = false := by
    rw [strippedBlocks]
    rfl
  simp [this]

theorem docSourceName_block (i : Nat) (c : RankedChunk)
    (hf : ('\n' : Char) ∉ c.filename.data)
    (ht : pyRStrip c.chunk_text.data = c.chunk_text.data) :
    docSourceName (pyStrip (blockOf i c)) = c.filename.data := by
  rw [pyStrip_blockOf i c ht]
  have hno : ∀ a ∈ headerOf i c.filename, (fun ch => decide ¬(ch = '\n')) a := by
    intro a ha
    simp only [decide_not, Bool.not_eq_eq_eq_not, Bool.not_true, decide_eq_false_iff_not]
    intro heq
    exact headerOf_no_newline i c.filename hf (heq ▸ ha)
  have htake : ∀ tail : List Char,
      (headerOf i c.filename ++
        (if c.chunk_text.data = [] then ([] : List Char) else '\n' :: c.chunk_text.data)).takeWhile
        (fun ch => decide ¬(ch = '\n')) = headerOf i c.filename := by
    intro tail
    by_cases hempty : c.chunk_text.data = []
    · rw [if_pos hempty, List.takeWhile_append_of_pos hno]
      simp
    · rw [if_neg hempty, List.takeWhile_append_of_pos hno,
        List.takeWhile_cons_of_neg (by simp)]
      simp
  show ((((headerOf i c.filename ++ _).takeWhile _).dropWhile _).drop 2).dropLast = _
  rw [htake []]
  rw [headerOf_decompose]
  have hpre : ∀ a ∈ "[ドキュメント ".data ++ natChars (i + 1),
      (fun ch => decide ¬(ch = ':')) a := by
    intro a ha
    simp only [decide_not, Bool.not_eq_eq_eq_not, Bool.not_true, decide_eq_false_iff_not]
    intro heq
    exact headerOf_no_colon_before_sep i a ha heq
  rw [List.dropWhile_append_of_pos hpre, List.dropWhile_cons_of_neg (by simp)]
  show ((c.filename.data ++ [']'])).dropLast = _
  rw [List.dropLast_concat]

theorem docText_block (i : Nat) (c : RankedChunk)
    (hf : ('\n' : Char) ∉ c.filename.data)
    (ht : pyRStrip c.chunk_text.data = c.chunk_text.data) :
    docText (pyStrip (blockOf i c)) = c.chunk_text.data := by
  rw [pyStrip_blockOf i c ht]
  have hno : ∀ a ∈ headerOf i c.filename, (fun ch => decide ¬(ch = '\n')) a := by
    intro a ha
    simp only [decide_not, Bool.not_eq_eq_eq_not, Bool.not_true, decide_eq_false_iff_not]
    intro heq
    exact headerOf_no_newline i c.filename hf (heq ▸ ha)
  by_cases hempty : c.chunk_text.data = []
  · rw [if_pos hempty]
    show ((headerOf i c.filename ++ []).dropWhile _).drop 1 = _
    rw [List.dropWhile_append_of_pos hno]
    rw [hempty]
    rfl
  · rw [if_neg hempty]
    show ((headerOf i c.filename ++ '\n' :: c.chunk_text.data).dropWhile _).drop 1 = _
    rw [List.dropWhile_append_of_pos hno, List.dropWhile_cons_of_neg (by simp)]
    rfl

theorem strippedBlocks_length :
    ∀ (cs : List RankedChunk) (i : Nat), (strippedBlocks i cs).length = cs.length := by
  intro cs
  induction cs with
  | nil => intro i; rfl
  | cons c cs' ih => intro i; rw [strippedBlocks]; simp [ih (i + 1)]

theorem strippedBlocks_map_name :
    ∀ (cs : List RankedChunk) (i : Nat),
    (∀ x ∈ cs, ('\n' : Char) ∉ x.filename.data) →
    (∀ x ∈ cs, pyRStrip x.chunk_text.data = x.chunk_text.data) →
    (strippedBlocks i cs).map docSourceName = cs.map (fun c => c.filename.data) := by
  intro cs
  induction cs with
  | nil => intro i _ _; rfl
  | cons c cs' ih =>
    intro i hf ht
    rw [strippedBlocks, List.map_cons, List.map_cons,
      docSourceName_block i c (hf c (by simp)) (ht c (by simp)),
      ih (i + 1) (fun x hx => hf x (List.mem_cons_of_mem c hx))
        (fun x hx => ht x (List.mem_cons_of_mem c hx))]

theorem strippedBlocks_map_text :
    ∀ (cs : List RankedChunk) (i : Nat),
    (∀ x ∈ cs, ('\n' : Char) ∉ x.filename.data) →
    (∀ x ∈ cs, pyRStrip x.chunk_text.data = x.chunk_text.data) →
    (strippedBlocks i cs).map docText = cs.map (fun c => c.chunk_text.data) := by
  intro cs
  induction cs with
  | nil => intro i _ _; rfl
  | cons c cs' ih =>
    intro i hf ht
    rw [strippedBlocks, List.map_cons, List.map_cons,
      docText_block i c (hf c (by simp)) (ht c (by simp)),
      ih (i + 1) (fun x hx => hf x (List.mem_cons_of_mem c hx))
        (fun x hx => ht x (List.mem_cons_of_mem c hx))]

/-- C9 counterexample: serializing an empty chunk list (`N = 0`) produces the
empty string, and parsing it back yields one chunk (the empty string), not
zero — `_parse_contexts_for_evaluation` returns `[""]` for empty input. -/
theorem contexts_roundtrip_claim_false :
    formatContexts [] = [] ∧ parseContexts (formatContexts []) = [[]]
      ∧ (parseContexts (formatContexts [])).length ≠ ([] : List RankedChunk).length := by
  exact ⟨rfl, rfl, by decide⟩

/-- C9 (amended): for every non-empty list of ranked chunks whose source
names contain no newline and whose texts are right-stripped and contain no
line starting with the `[ドキュメント` tag marker, serializing them into
grounding text and parsing that text back yields exactly N chunks carrying
the same source names and the same texts, in the same order. -/
theorem contexts_roundtrip (chunks : List RankedChunk)
    (hne : chunks ≠ [])
    (hf : ∀ c ∈ chunks, ('\n' : Char) ∉ c.filename.data)
    (ht : ∀ c ∈ chunks, pyRStrip c.chunk_text.data = c.chunk_text.data)
    (hm : ∀ c ∈ chunks, ∀ l ∈ pySplitNl c.chunk_text.data,
      docMarker.isPrefixOf l = false) :
    (parseContexts (formatContexts chunks)).length = chunks.length
    ∧ (parseContexts (formatContexts chunks)).map docSourceName
        = chunks.map (fun c => c.filename.data)
    ∧ (parseContexts (formatContexts chunks)).map docText
        = chunks.map (fun c => c.chunk_text.data) := by
  obtain ⟨c, cs, rfl⟩ : ∃ c cs, chunks = c :: cs := by
    cases chunks with
    | nil => exact absurd rfl hne
    | cons c cs => exact ⟨c, cs, rfl⟩
  rw [parseContexts_formatContexts c cs hf ht hm]
  exact ⟨strippedBlocks_length (c :: cs) 0,
    strippedBlocks_map_name (c :: cs) 0 hf ht,
    strippedBlocks_map_text (c :: cs) 0 hf ht⟩

/-- C9 witness: a concrete two-chunk serialization round trip. -/
theorem contexts_roundtrip_witness :
    ([{ chunk_id := 1, document_id := 1, filename := "a.txt", chunk_text := "hello\nworld",
        distance := 0, rerank_score := none },
      { chunk_id := 2, document_id := 1, filename := "b.txt", chunk_text := "second",
        distance := 1, rerank_score := none }] : List RankedChunk) ≠ []
    ∧ (parseContexts (formatContexts
        [{ chunk_id := 1, document_id := 1, filename := "a.txt", chunk_text := "hello\nworld",
           distance := 0, rerank_score := none },
         { chunk_id := 2, document_id := 1, filename := "b.txt", chunk_text := "second",
           distance := 1, rerank_score := none }])).map docSourceName
      = ["a.txt".data, "b.txt".data] := by
  refine ⟨by simp, ?_⟩
  have h := contexts_roundtrip
    [{ chunk_id := 1, document_id := 1, filename := "a.txt", chunk_text := "hello\nworld",
       distance := 0, rerank_score := none },
     { chunk_id := 2, document_id := 1, filename := "b.txt", chunk_text := "second",
       distance := 1, rerank_score := none }]
    (by simp) (by decide) (by decide) (by decide)
  rw [h.2.1]
  rfl

end Rag
